import Mathlib

/-!
Verification of the `alhc` async HTTP client library (Rust) against its
natural-language specification, via a shallow embedding in Lean 4.

Pure functions of the Rust source are translated to Lean functions; the
stateful request/response state machines are translated to explicit
state-passing step functions; machine integers (`usize`, `u16`, `u32`) are
modelled as `Nat` with explicit bounds/sentinels where the code relies on
them.  Native WinHTTP / CFNetwork calls are modelled as operations on an
explicit "native side" component of the state, whose completions are the
callback invocations of the source.
-/

namespace Alhc

/-! ## Error mapper (src/windows/err_code.rs, src/windows/mod.rs)

`std::io::ErrorKind` values that the mapper uses, plus the catch-all
`other` produced both by explicitly-mapped codes and by
`std::io::Error::from_raw_os_error` on unrecognized codes. -/

inductive ErrorKind where
  | notConnected
  | connectionAborted
  | timedOut
  | outOfMemory
  | invalidInput
  | invalidData
  | notFound
  | other
  deriving DecidableEq, Repr

/-- A `std::io::Error` as produced by the error mapper: a semantic kind, the
static diagnostic message for recognized codes, and the raw OS error code
kept by `std::io::Error::from_raw_os_error` for unrecognized codes. -/
structure IoError where
  kind : ErrorKind
  msg : String
  rawOsCode : Option Nat
  deriving DecidableEq, Repr

/-- `ERROR_WINHTTP_OPERATION_CANCELLED` (12017), the one native code the
callback bridge swallows. -/
def ERROR_WINHTTP_OPERATION_CANCELLED : Nat := 12017

/-- `ERROR_WINHTTP_TIMEOUT` (12002). -/
def ERROR_WINHTTP_TIMEOUT : Nat := 12002

/-- The match arms of `resolve_io_error_from_error_code`
(src/windows/err_code.rs:8-233): each recognized `ERROR_WINHTTP_*` code with
the `ErrorKind` and diagnostic message of its arm, in source order.  The
numeric value of every constant is the one recorded in the arm's own
message string (and by the `windows_sys` crate). -/
def winhttpErrorTable : List (Nat × ErrorKind × String) :=
  [ (12180, .other, "ERROR_WINHTTP_AUTODETECTION_FAILED: 12180")
  , (12178, .other, "ERROR_WINHTTP_AUTO_PROXY_SERVICE_ERROR: 12178")
  , (12166, .other, "ERROR_WINHTTP_BAD_AUTO_PROXY_SCRIPT: 12166")
  , (12103, .other, "ERROR_WINHTTP_CANNOT_CALL_AFTER_OPEN: 12103")
  , (12102, .other, "ERROR_WINHTTP_CANNOT_CALL_AFTER_SEND: 12102")
  , (12100, .other, "ERROR_WINHTTP_CANNOT_CALL_BEFORE_OPEN: 12100")
  , (12101, .other, "ERROR_WINHTTP_CANNOT_CALL_BEFORE_SEND: 12101")
  , (12029, .notConnected, "ERROR_WINHTTP_CANNOT_CONNECT: 12029")
  , (12183, .outOfMemory, "ERROR_WINHTTP_CHUNKED_ENCODING_HEADER_SIZE_OVERFLOW: 12183")
  , (12044, .other, "ERROR_WINHTTP_CLIENT_AUTH_CERT_NEEDED: 12044")
  , (12187, .other, "ERROR_WINHTTP_CLIENT_AUTH_CERT_NEEDED_PROXY: 12187")
  , (12186, .other, "ERROR_WINHTTP_CLIENT_CERT_NO_ACCESS_PRIVATE_KEY: 12186")
  , (12185, .other, "ERROR_WINHTTP_CLIENT_CERT_NO_PRIVATE_KEY: 12185")
  , (12030, .connectionAborted, "ERROR_WINHTTP_CONNECTION_ERROR: 12030")
  , (12192, .other, "ERROR_WINHTTP_FEATURE_DISABLED: 12192")
  , (12191, .other, "ERROR_WINHTTP_GLOBAL_CALLBACK_FAILED: 12191")
  , (12155, .other, "ERROR_WINHTTP_HEADER_ALREADY_EXISTS: 12155")
  , (12181, .other, "ERROR_WINHTTP_HEADER_COUNT_EXCEEDED: 12181")
  , (12150, .notFound, "ERROR_WINHTTP_HEADER_NOT_FOUND: 12150")
  , (12182, .outOfMemory, "ERROR_WINHTTP_HEADER_SIZE_OVERFLOW: 12182")
  , (12190, .other, "ERROR_WINHTTP_HTTP_PROTOCOL_MISMATCH: 12190")
  , (12019, .other, "ERROR_WINHTTP_INCORRECT_HANDLE_STATE: 12019")
  , (12018, .other, "ERROR_WINHTTP_INCORRECT_HANDLE_TYPE: 12018")
  , (12004, .other, "ERROR_WINHTTP_INTERNAL_ERROR: 12004")
  , (12153, .invalidData, "ERROR_WINHTTP_INVALID_HEADER: 12153")
  , (12009, .invalidInput, "ERROR_WINHTTP_INVALID_OPTION: 12009")
  , (12154, .other, "ERROR_WINHTTP_INVALID_QUERY_REQUEST: 12154")
  , (12152, .other, "ERROR_WINHTTP_INVALID_SERVER_RESPONSE: 12152")
  , (12005, .invalidInput, "ERROR_WINHTTP_INVALID_URL: 12005")
  , (12015, .other, "ERROR_WINHTTP_LOGIN_FAILURE: 12015")
  , (12007, .other, "ERROR_WINHTTP_NAME_NOT_RESOLVED: 12007")
  , (12172, .other, "ERROR_WINHTTP_NOT_INITIALIZED: 12172")
  , (12017, .other, "ERROR_WINHTTP_OPERATION_CANCELLED: 12017")
  , (12011, .other, "ERROR_WINHTTP_OPTION_NOT_SETTABLE: 12011")
  , (12001, .other, "ERROR_WINHTTP_OUT_OF_HANDLES: 12001")
  , (12156, .other, "ERROR_WINHTTP_REDIRECT_FAILED: 12156")
  , (12032, .other, "ERROR_WINHTTP_RESEND_REQUEST: 12032")
  , (12189, .other, "ERROR_WINHTTP_RESERVED_189: 12189")
  , (12184, .outOfMemory, "ERROR_WINHTTP_RESPONSE_DRAIN_OVERFLOW: 12184")
  , (12177, .other, "ERROR_WINHTTP_SCRIPT_EXECUTION_ERROR: 12177")
  , (12038, .other, "ERROR_WINHTTP_SECURE_CERT_CN_INVALID: 12038")
  , (12037, .other, "ERROR_WINHTTP_SECURE_CERT_DATE_INVALID: 12037")
  , (12170, .other, "ERROR_WINHTTP_SECURE_CERT_REVOKED: 12170")
  , (12057, .other, "ERROR_WINHTTP_SECURE_CERT_REV_FAILED: 12057")
  , (12179, .other, "ERROR_WINHTTP_SECURE_CERT_WRONG_USAGE: 12179")
  , (12157, .other, "ERROR_WINHTTP_SECURE_CHANNEL_ERROR: 12157")
  , (12175, .other, "ERROR_WINHTTP_SECURE_FAILURE: 12175")
  , (12188, .other, "ERROR_WINHTTP_SECURE_FAILURE_PROXY: 12188")
  , (12045, .other, "ERROR_WINHTTP_SECURE_INVALID_CA: 12045")
  , (12169, .other, "ERROR_WINHTTP_SECURE_INVALID_CERT: 12169")
  , (12012, .other, "ERROR_WINHTTP_SHUTDOWN: 12012")
  , (12002, .timedOut, "ERROR_WINHTTP_TIMEOUT: 12002")
  , (12167, .other, "ERROR_WINHTTP_UNABLE_TO_DOWNLOAD_SCRIPT: 12167")
  , (12176, .other, "ERROR_WINHTTP_UNHANDLED_SCRIPT_TYPE: 12176")
  , (12006, .other, "ERROR_WINHTTP_UNRECOGNIZED_SCHEME: 12006")
  ]

/-- The recognized native codes: the left-hand sides of the match arms. -/
def recognizedWinhttpCodes : List Nat := winhttpErrorTable.map (·.1)

/-- `resolve_io_error_from_error_code` (src/windows/err_code.rs:8-233).
A Rust `match` over distinct integer constants is embedded as first-match
lookup in the table of its arms; the final `other => Err(std::io::Error::
from_raw_os_error(other as _))` arm becomes the fallback, which keeps the
raw numeric code. -/
def resolve_io_error_from_error_code (code : Nat) : IoError :=
  match winhttpErrorTable.find? (fun e => e.1 = code) with
  | some (_, kind, msg) => { kind := kind, msg := msg, rawOsCode := none }
  | none => { kind := .other, msg := "", rawOsCode := some code }

/-! ## Header parsing (src/windows/response.rs:29-61, src/windows/mod.rs:337-369)

`WinHTTPResponse::recv` parses the raw header text after draining the body:
status code from the first line, headers from the rest, duplicate names
joined with `"; "`.  String manipulation is embedded on `List Char` so that
everything reduces in the kernel; the Rust functions being mirrored are
`str::lines`, `str::split`, `str::split_once`, `str::trim` and
`str::parse::<u16>`. -/

/-- Split a character list at every occurrence of `c` (Rust `str::split`). -/
def splitOnChar (c : Char) : List Char → List (List Char)
  | [] => [[]]
  | x :: xs =>
    let r := splitOnChar c xs
    if x = c then
      [] :: r
    else
      match r with
      | [] => [[x]]
      | y :: ys => (x :: y) :: ys

/-- Rust `str::lines`: split on `'\n'`, a final line feed does not produce a
trailing empty line, and a trailing `'\r'` is stripped from each line. -/
def rustLines (l : List Char) : List (List Char) :=
  let parts := splitOnChar '\n' l
  let parts := if parts.getLast? = some [] then parts.dropLast else parts
  parts.map fun ln => if ln.getLast? = some '\r' then ln.dropLast else ln

/-- All-digits numeral parse (helper for `str::parse::<u16>`). -/
def parseDigits : List Char → Option Nat
  | [] => none
  | l => l.foldl (fun acc c =>
      match acc with
      | none => none
      | some n => if c.isDigit then some (n * 10 + (c.toNat - 48)) else none)
      (some 0)

/-- Rust `str::parse::<u16>`: optional leading `'+'`, decimal digits, value
must fit in `u16`. -/
def parseU16 (l : List Char) : Option Nat :=
  let l := match l with
    | '+' :: rest => rest
    | _ => l
  match parseDigits l with
  | some n => if n ≤ 65535 then some n else none
  | none => none

/-- Rust `str::split_once(": ")`: split at the first occurrence of the
`": "` separator used by the header parser. -/
def splitOnceColonSpace : List Char → Option (List Char × List Char)
  | [] => none
  | ':' :: ' ' :: rest => some ([], rest)
  | x :: xs => (splitOnceColonSpace xs).map fun p => (x :: p.1, p.2)

/-- Rust `str::trim` (whitespace from both ends). -/
def trimChars (l : List Char) : List Char :=
  ((l.dropWhile Char.isWhitespace).reverse.dropWhile Char.isWhitespace).reverse

/-- The `HashMap` update of the header loop: if the name is present, append
`"; "` and the new value to the existing entry, otherwise insert
(src/windows/response.rs:43-54).  The hash map is embedded as an
association list. -/
def insertHeaderJoin (m : List (List Char × List Char)) (k v : List Char) :
    List (List Char × List Char) :=
  match m with
  | [] => [(k, v)]
  | (k', v') :: rest =>
    if k' = k then
      (k', v' ++ (';' :: ' ' :: v)) :: rest
    else
      (k', v') :: insertHeaderJoin rest k v

/-- The status-code extraction of `recv`: first line, token after the first
space, parsed as `u16` with every failure defaulting to `0`. -/
def parseStatusCode (ls : List (List Char)) : Nat :=
  match ls.head? with
  | none => 0
  | some first =>
    match (splitOnChar ' ' first).get? 1 with
    | none => 0
    | some tok => (parseU16 tok).getD 0

/-- The header-map construction of `recv`: every line after the first that
contains `": "` contributes a trimmed name/value pair. -/
def parseHeaderLines (ls : List (List Char)) : List (List Char × List Char) :=
  (ls.drop 1).foldl
    (fun m line =>
      match splitOnceColonSpace line with
      | some (k, v) => insertHeaderJoin m (trimChars k) (trimChars v)
      | none => m)
    []

/-- The header-parsing step of `WinHTTPResponse::recv`
(src/windows/response.rs:33-54): raw header text to status code and header
mapping. -/
def parseResponseHead (raw : String) : Nat × List (String × String) :=
  let ls := rustLines raw.data
  (parseStatusCode ls, (parseHeaderLines ls).map fun p => (⟨p.1⟩, ⟨p.2⟩))

/-- Association-list lookup used to state what the header mapping contains. -/
def headerLookup (m : List (String × String)) (k : String) : Option String :=
  match m with
  | [] => none
  | (k', v) :: rest => if k' = k then some v else headerLookup rest k

/-! ## Fixed-size transfer buffer (src/macos/rwbuf.rs)

`ReadWriteBuffer<const S: usize>` tracks a write cursor and a read cursor
into a fixed byte array of size `S`.  The byte array itself is written
through the slice returned by `get_writable_slice`; the cursor operations
below, which are what the invariant claim is about, never touch it, so the
embedding carries the two cursors. -/

structure ReadWriteBuffer (S : Nat) where
  read_len : Nat
  write_len : Nat
  deriving DecidableEq, Repr

namespace ReadWriteBuffer

/-- `Default for ReadWriteBuffer<S>` (src/macos/rwbuf.rs:18-26). -/
def default (S : Nat) : ReadWriteBuffer S :=
  { read_len := 0, write_len := 0 }

variable {S : Nat}

/-- src/macos/rwbuf.rs:29-31 -/
def is_full (b : ReadWriteBuffer S) : Bool := b.write_len = S

/-- src/macos/rwbuf.rs:37-40 -/
def increase_write_len (b : ReadWriteBuffer S) (len : Nat) : ReadWriteBuffer S :=
  { b with write_len := b.write_len + len }

/-- src/macos/rwbuf.rs:42-44 -/
def get_writable_len (b : ReadWriteBuffer S) : Nat := S - b.write_len

/-- src/macos/rwbuf.rs:50-57: advance the read cursor; when it catches up
with the write cursor both reset to `0`. -/
def increase_read_len (b : ReadWriteBuffer S) (len : Nat) : ReadWriteBuffer S :=
  let b := { b with read_len := b.read_len + len }
  if b.read_len = b.write_len then
    { b with read_len := 0, write_len := 0 }
  else
    b

/-- src/macos/rwbuf.rs:59-61 -/
def is_empty (b : ReadWriteBuffer S) : Bool := b.read_len = 0 && b.write_len = 0

/-- src/macos/rwbuf.rs:63-65 -/
def get_readable_len (b : ReadWriteBuffer S) : Nat := b.write_len - b.read_len

/-- src/macos/rwbuf.rs:67-69 -/
def is_readable (b : ReadWriteBuffer S) : Bool := 0 < b.get_readable_len

end ReadWriteBuffer

/-- The cursor-mutating operations of `ReadWriteBuffer`. -/
inductive RWOp where
  | incWrite (n : Nat)
  | incRead (n : Nat)
  deriving DecidableEq, Repr

/-- Run a sequence of cursor operations, refusing (`none`) any call whose
argument exceeds what the claim allows: an `increase_write_len` argument
beyond the current writable length or an `increase_read_len` argument
beyond the current readable length. -/
def runRWOps {S : Nat} : List RWOp → ReadWriteBuffer S → Option (ReadWriteBuffer S)
  | [], b => some b
  | RWOp.incWrite n :: ops, b =>
    if n ≤ b.get_writable_len then runRWOps ops (b.increase_write_len n) else none
  | RWOp.incRead n :: ops, b =>
    if n ≤ b.get_readable_len then runRWOps ops (b.increase_read_len n) else none

/-! ## Method (src/lib.rs:32-73) -/

/-- The `Method` enum exactly as declared in src/lib.rs:33-42. -/
inductive Method where
  | GET
  | POST
  | HEAD
  | PUT
  | TRACE
  | DELETE
  | CONNECT
  | OPTIONS
  deriving DecidableEq, Repr

namespace Method

/-- `Method::as_str` (src/lib.rs:45-56). -/
def as_str : Method → String
  | .GET => "GET"
  | .POST => "POST"
  | .HEAD => "HEAD"
  | .PUT => "PUT"
  | .TRACE => "TRACE"
  | .DELETE => "DELETE"
  | .CONNECT => "CONNECT"
  | .OPTIONS => "OPTIONS"

/-- `Method::as_raw_str_wide` (src/lib.rs:60-72): the static
NUL-terminated UTF-16 buffers, code unit by code unit. -/
def as_raw_str_wide : Method → List Nat
  | .GET => [71, 69, 84, 0]
  | .POST => [80, 79, 83, 84, 0]
  | .HEAD => [72, 69, 65, 68, 0]
  | .PUT => [80, 85, 84, 0]
  | .TRACE => [84, 82, 65, 67, 69, 0]
  | .DELETE => [68, 69, 76, 69, 84, 69, 0]
  | .CONNECT => [67, 79, 78, 78, 69, 67, 84, 0]
  | .OPTIONS => [79, 80, 84, 73, 79, 78, 83, 0]

end Method

/-- UTF-16 encoding of a BMP-only string followed by a NUL terminator (all
method names are ASCII, so each character is one code unit). -/
def utf16z (s : String) : List Nat := s.data.map Char.toNat ++ [0]

/-! ## ResponseBody (src/lib.rs / src/macos/response.rs) -/

/-- `ResponseBody`: byte payload, status code, header mapping. -/
structure ResponseBody where
  data : List Nat
  code : Nat
  headers : List (String × String)
  deriving DecidableEq, Repr

/-- `Response::recv` for the macOS backend (src/macos/response.rs:146-158):
after draining the body bytes it builds a `ResponseBody` with `code: 0` and
`headers: HashMap::default()` — the status line and headers of the native
response are never consulted (`// TODO: Headers and status code`). -/
def macosRecv (bodyBytes : List Nat) : ResponseBody :=
  { data := bodyBytes, code := 0, headers := [] }

/-! ## Connection cache (src/windows/mod.rs:788-813)

`Client::get_or_connect_connection` works on `Mutex<HashMap<String,
Arc<Handle>>>`; the mutex is held for the whole call, so the call is a
sequential function of the cache contents.  `Arc<Handle>` sharing is
embedded by identifying a shared handle with its stable numeric identity
(`Arc::clone` returns the same identity).  The native `WinHttpConnect`
call is a parameter: it either yields a fresh handle or fails with a
`GetLastError` code that the function maps through
`resolve_io_error_from_error_code` (via `resolve_io_error`). -/

/-- Association-list reading of `HashMap::get` for the connection cache. -/
def cacheLookup (cache : List (String × Nat)) (hostname : String) : Option Nat :=
  match cache with
  | [] => none
  | (h, c) :: rest => if h = hostname then some c else cacheLookup rest hostname

/-- `Client::get_or_connect_connection` (src/windows/mod.rs:788-813).
Returns the result, the updated cache, and how many native
`WinHttpConnect` calls were performed. -/
def get_or_connect_connection (cache : List (String × Nat))
    (connect : String → Except Nat Nat) (hostname : String) :
    Except IoError Nat × List (String × Nat) × Nat :=
  match cacheLookup cache hostname with
  | some conn => (Except.ok conn, cache, 0)
  | none =>
    match connect hostname with
    | Except.error code =>
      (Except.error (resolve_io_error_from_error_code code), cache, 1)
    | Except.ok conn => (Except.ok conn, (hostname, conn) :: cache, 1)

/-! ## Windows request state machine
(src/windows/request.rs:76-175, src/windows/mod.rs:166-279, callback in
src/windows/mod.rs:843-965)

The poll function reads `ctx.status`, overwrites it with
`NetworkStatus::Pending`, and dispatches on the value read; the status
callback, driven by the WinHTTP worker when an asynchronous operation
completes, writes the next status into the shared context and wakes the
stored waker.  The embedding keeps the context, the body source (a list of
the chunks its successive `poll_read` calls yield, each non-empty; the
empty tail is the `Ok(0)` end), and — as observation variables — the list
of native `WinHttpWriteData` payloads issued so far and the native call
the machine is waiting on. -/

/-- `NetworkStatus` (src/windows/mod.rs:267-279). -/
inductive NetworkStatus where
  | init
  | pending
  | error
  | writeCompleted
  | bodySent
  | headersReceived
  | dataAvailable
  | dataWritten
  deriving DecidableEq, Repr

/-- The asynchronous native calls a request issues; each one's completion
is delivered by the status callback. -/
inductive ReqNativeOp where
  | sendRequest
  | writeData
  | receiveResponse
  deriving DecidableEq, Repr

/-- The request-relevant part of `NetworkContext`
(src/windows/mod.rs:44-63). -/
structure ReqCtx where
  wakerSet : Bool
  status : NetworkStatus
  ioError : Option IoError
  rawHeaders : String
  deriving DecidableEq, Repr

/-- State of one in-flight `WinHTTPRequest` plus its native side. -/
structure WinReqState where
  ctx : ReqCtx
  /-- chunks the body byte-source will yield to successive `poll_read`
  calls; `[]` means the next read returns `Ok(0)`. -/
  bodyChunks : List (List Nat)
  /-- observation: payloads of the `WinHttpWriteData` calls issued, in
  order. -/
  writes : List (List Nat)
  /-- native call issued and not yet completed by the WinHTTP worker. -/
  pendingNative : Option ReqNativeOp
  /-- raw response header text the native layer will deliver. -/
  nativeHeaders : String
  deriving DecidableEq, Repr

/-- Result of one `Future::poll` of a request. -/
inductive ReqPoll where
  | pending
  | response (rawHeaders : String)
  | ioError (e : IoError)
  /-- the `_ => unreachable!()` arm -/
  | diverged
  deriving DecidableEq, Repr

/-- `<WinHTTPRequest as Future>::poll` (src/windows/request.rs:79-174).
Native calls are issued by recording them in `pendingNative` (the happy
path where the synchronous return value of the native call reports
success).  The second component of the result records whether the poll
called `cx.waker().wake_by_ref()` on its own waker. -/
def reqPoll (s : WinReqState) : ReqPoll × WinReqState × Bool :=
  let status := s.ctx.status
  let s := { s with ctx := { s.ctx with status := .pending } }
  match status with
  | .pending => (.pending, s, false)
  | .init =>
    -- register waker, `WinHttpSendRequest` with the context pointer
    (.pending, { s with ctx := { s.ctx with wakerSet := true },
                        pendingNative := some .sendRequest }, false)
  | .writeCompleted =>
    match s.bodyChunks with
    | [] =>
      -- body source returned `Ok(0)`: body exhausted
      (.pending, { s with ctx := { s.ctx with status := .bodySent } }, true)
    | c :: rest =>
      -- `WinHttpWriteData` of exactly the `size` bytes just read
      (.pending, { s with bodyChunks := rest, writes := s.writes ++ [c],
                          pendingNative := some .writeData }, false)
  | .bodySent =>
    -- `WinHttpReceiveResponse`
    (.pending, { s with pendingNative := some .receiveResponse }, false)
  | .headersReceived =>
    (.response s.ctx.rawHeaders, s, false)
  | .error =>
    match s.ctx.ioError with
    | some e => (.ioError e, { s with ctx := { s.ctx with ioError := none } }, false)
    | none => (.ioError { kind := .other, msg := "", rawOsCode := none }, s, false)
  | _ => (.diverged, s, false)

/-- The WinHTTP worker completing the pending native call and invoking
`status_callback` (src/windows/mod.rs:843-965): `SENDREQUEST_COMPLETE` and
`WRITE_COMPLETE` store `WriteCompleted`; completion of
`WinHttpReceiveResponse` queries the raw headers (two-pass
`WinHttpQueryHeaders`) and stores `HeadersReceived`.  The callback wakes
the stored waker. -/
def reqNativeStep (s : WinReqState) : WinReqState :=
  match s.pendingNative with
  | none => s
  | some .sendRequest =>
    { s with pendingNative := none,
             ctx := { s.ctx with status := .writeCompleted } }
  | some .writeData =>
    { s with pendingNative := none,
             ctx := { s.ctx with status := .writeCompleted } }
  | some .receiveResponse =>
    { s with pendingNative := none,
             ctx := { s.ctx with status := .headersReceived, rawHeaders := s.nativeHeaders } }

/-- `WINHTTP_CALLBACK_STATUS_REQUEST_ERROR` handling
(src/windows/mod.rs:946-961): a native error whose code is not
`ERROR_WINHTTP_OPERATION_CANCELLED` is mapped, stored, and the waker is
woken (when one is stored); the cancelled code changes nothing and wakes
no one.  Returns the new state and whether the waker was invoked. -/
def reqErrorCallback (s : WinReqState) (code : Nat) : WinReqState × Bool :=
  if code ≠ ERROR_WINHTTP_OPERATION_CANCELLED then
    ({ s with ctx := { s.ctx with
        ioError := some (resolve_io_error_from_error_code code),
        status := .error } }, s.ctx.wakerSet)
  else
    (s, false)

/-- Fresh request state (src/windows/mod.rs:776-784: context is
`Default::default()`), for a body source yielding `chunks` and a native
layer that will answer `WinHttpReceiveResponse` with `headers`. -/
def initReqState (chunks : List (List Nat)) (headers : String) : WinReqState :=
  { ctx := { wakerSet := false, status := .init, ioError := none, rawHeaders := "" },
    bodyChunks := chunks,
    writes := [],
    pendingNative := none,
    nativeHeaders := headers }

/-- Drive a request to completion: poll; while the poll returns `Pending`,
let the WinHTTP worker complete the outstanding native call (the wake-up
then causes the next poll).  Fuel bounds the number of polls; `none` means
fuel ran out or the future resolved with an error. -/
def driveReq : Nat → WinReqState → Option (String × WinReqState)
  | 0, _ => none
  | fuel + 1, s =>
    match reqPoll s with
    | (.pending, s', _) => driveReq fuel (reqNativeStep s')
    | (.response raw, s', _) => some (raw, s')
    | (.ioError _, _, _) => none
    | (.diverged, _, _) => none

/-- The state at the head of the body-upload loop: the last
`WinHttpSendRequest`/`WinHttpWriteData` has completed (`WriteCompleted`
stored by the callback), `chunks` remain to be read from the body source,
`ws` have been written natively so far. -/
def reqLoopState (chunks ws : List (List Nat)) (hdrs : String) : WinReqState :=
  { ctx := { wakerSet := true, status := .writeCompleted, ioError := none, rawHeaders := "" },
    bodyChunks := chunks,
    writes := ws,
    pendingNative := none,
    nativeHeaders := hdrs }

/-- The request state the moment the `HeadersReceived` poll resolves the
future, with the accumulated native writes `ws`. -/
def reqDoneState (ws : List (List Nat)) (hdrs : String) : WinReqState :=
  { ctx := { wakerSet := true, status := .pending, ioError := none, rawHeaders := hdrs },
    bodyChunks := [],
    writes := ws,
    pendingNative := none,
    nativeHeaders := hdrs }

/-! ## Windows response stream — channel revision
(src/windows/response.rs:64-137, callback in src/windows/callback.rs)

`WinHTTPResponse::poll_read` drains the 8 KiB transfer buffer through the
`read_size` cursor; when the cursor catches up it consumes one event from
the bounded channel fed by `status_callback` and issues the next native
call.  The WinHTTP worker answers `WinHttpQueryDataAvailable` with a
`DATA_AVAILABLE` callback and `WinHttpReadData` with a `READ_COMPLETE`
callback that fills the buffer, records the transferred length in
`ctx.buf_size`, sets `ctx.has_completed` when that length is zero, and
sends `DataWritten` (src/windows/callback.rs:119-134).  The native payload
is embedded as the list of per-read chunks (each at most `BUF_SIZE` bytes,
the empty final read signalling end-of-stream). -/

/-- `BUF_SIZE` (src/windows/mod.rs:67): WinHTTP requires at least 8 KiB. -/
def BUF_SIZE : Nat := 8 * 1024

/-- `usize::MAX`, used by `poll_read` as the in-flight-read sentinel for
`ctx.buf_size`. -/
def USIZE_MAX : Nat := 2 ^ 64 - 1

/-- `WinHTTPCallbackEvent` (the variants `poll_read` consumes). -/
inductive WinHTTPCallbackEvent where
  | writeCompleted
  | rawHeadersReceived (h : String)
  | dataAvailable
  | dataWritten
  | ioError (e : IoError)
  deriving DecidableEq, Repr

/-- The asynchronous native calls a response stream issues. -/
inductive RespNativeOp where
  | queryDataAvailable
  | readData
  deriving DecidableEq, Repr

/-- The response-relevant part of `NetworkContext` for the channel
revision: `waker`, `has_completed`, `buf_size`. -/
structure RespCtx where
  wakerSet : Bool
  hasCompleted : Bool
  bufSize : Nat
  deriving DecidableEq, Repr

/-- State of one `WinHTTPResponse` stream plus its native side. -/
structure WinRespState where
  ctx : RespCtx
  readSize : Nat
  totalReadSize : Nat
  /-- contents of the fixed transfer buffer `buf: [u8; BUF_SIZE]`. -/
  buf : List Nat
  /-- the `std::sync::mpsc` channel from `status_callback` to the poll. -/
  events : List WinHTTPCallbackEvent
  /-- native call issued and not yet completed by the WinHTTP worker. -/
  pendingOp : Option RespNativeOp
  /-- native payload not yet transferred, as the successive
  `WinHttpReadData` chunk contents. -/
  chunks : List (List Nat)
  deriving DecidableEq, Repr

/-- Result of one `poll_read`: `Ready(Ok(bytes))` (with `bytes = []` for
the `Ok(0)` end-of-stream), `Ready(Err(e))`, `Pending`, or the
`_ => unreachable!()` arm. -/
inductive RespPoll where
  | pending
  | ok (bytes : List Nat)
  | ioError (e : IoError)
  | diverged
  deriving DecidableEq, Repr

/-- `<WinHTTPResponse as AsyncRead>::poll_read`
(src/windows/response.rs:64-137) reading into a caller buffer of length
`k`.  Native calls are issued by recording them in `pendingOp` (happy path
where their synchronous return value reports success; a `0` return would
surface `resolve_io_error()` instead). -/
def respPollRead (s : WinRespState) (k : Nat) : RespPoll × WinRespState :=
  -- first call: store the waker and issue `WinHttpQueryDataAvailable`
  let s := if s.ctx.wakerSet then s
    else { s with ctx := { s.ctx with wakerSet := true },
                  pendingOp := some .queryDataAvailable }
  if s.ctx.hasCompleted then
    (.ok [], s)
  else if s.ctx.bufSize ≠ USIZE_MAX ∧ s.readSize < s.ctx.bufSize then
    -- drain the transfer buffer through the read cursor
    let n := min (min s.ctx.bufSize k) (s.ctx.bufSize - s.readSize)
    (.ok ((s.buf.drop s.readSize).take n),
      { s with readSize := s.readSize + n, totalReadSize := s.totalReadSize + n })
  else
    match s.events with
    | [] => (.pending, s)          -- `TryRecvError::Empty`
    | e :: rest =>
      let s := { s with events := rest }
      match e with
      | .dataAvailable =>
        -- reset the cursor, mark a read in flight, `WinHttpReadData`
        (.pending, { s with readSize := 0,
                            ctx := { s.ctx with bufSize := USIZE_MAX },
                            pendingOp := some .readData })
      | .dataWritten =>
        if s.ctx.bufSize = 0 then
          (.ok [], s)
        else
          -- chunk exhausted: `WinHttpQueryDataAvailable` for the next one
          (.pending, { s with pendingOp := some .queryDataAvailable })
      | .ioError e => (.ioError e, s)
      | _ => (.diverged, s)

/-- The WinHTTP worker completing the pending native call and invoking
`status_callback` (src/windows/callback.rs:119-134):
`WinHttpQueryDataAvailable` completes with `DATA_AVAILABLE`;
`WinHttpReadData` copies the next chunk into the transfer buffer and
completes with `READ_COMPLETE`, whose handler records the length in
`ctx.buf_size`, sets `ctx.has_completed` when it is zero, and sends
`DataWritten`. -/
def respNativeStep (s : WinRespState) : WinRespState :=
  match s.pendingOp with
  | none => s
  | some .queryDataAvailable =>
    { s with pendingOp := none, events := s.events ++ [.dataAvailable] }
  | some .readData =>
    match s.chunks with
    | [] =>
      { s with pendingOp := none,
               ctx := { s.ctx with bufSize := 0, hasCompleted := true },
               events := s.events ++ [.dataWritten] }
    | c :: rest =>
      { s with pendingOp := none,
               buf := c ++ s.buf.drop c.length,
               ctx := { s.ctx with bufSize := c.length, hasCompleted := decide (c.length = 0) },
               chunks := rest,
               events := s.events ++ [.dataWritten] }

/-- Fresh response stream state (src/windows/request.rs:143-165: a
default-reset context, `read_size: 0`, zeroed buffer), for a native layer
whose remaining payload is `chunks`. -/
def initRespState (chunks : List (List Nat)) : WinRespState :=
  { ctx := { wakerSet := false, hasCompleted := false, bufSize := 0 },
    readSize := 0,
    totalReadSize := 0,
    buf := List.replicate BUF_SIZE 0,
    events := [],
    pendingOp := none,
    chunks := chunks }

/-- Drive a response stream until end-of-stream: poll with a caller buffer
of length `k`; each returned chunk is collected; while the poll returns
`Pending`, let the WinHTTP worker complete the outstanding native call.
`some (outs, s')` means the stream reported `Ok(0)` after producing the
chunks `outs`. -/
def driveResp : Nat → WinRespState → Nat → List (List Nat) →
    Option (List (List Nat) × WinRespState)
  | 0, _, _, _ => none
  | fuel + 1, s, k, acc =>
    match respPollRead s k with
    | (.ok bytes, s') =>
      if bytes.isEmpty then some (acc, s')
      else driveResp fuel s' k (acc ++ [bytes])
    | (.pending, s') => driveResp fuel (respNativeStep s') k acc
    | (.ioError _, _) => none
    | (.diverged, _) => none

/-- The state at the head of the download loop: `status_callback` has just
delivered `DATA_AVAILABLE` for the pending `WinHttpQueryDataAvailable`;
`chunks` remain on the native side, the transfer buffer holds `buf` with
`bufSize = b` and read cursor `r` (fully drained or initial). -/
def respLoopState (chunks : List (List Nat)) (buf : List Nat) (b r t : Nat) : WinRespState :=
  { ctx := { wakerSet := true, hasCompleted := false, bufSize := b },
    readSize := r,
    totalReadSize := t,
    buf := buf,
    events := [WinHTTPCallbackEvent.dataAvailable],
    pendingOp := none,
    chunks := chunks }

/-- The state while a chunk is being drained: `READ_COMPLETE` parked `b`
bytes in the transfer buffer and queued `DataWritten`; the read cursor is
at `r`. -/
def respDrainState (chunks : List (List Nat)) (buf : List Nat) (b r t : Nat) : WinRespState :=
  { ctx := { wakerSet := true, hasCompleted := false, bufSize := b },
    readSize := r,
    totalReadSize := t,
    buf := buf,
    events := [WinHTTPCallbackEvent.dataWritten],
    pendingOp := none,
    chunks := chunks }

/-! ## Windows response stream — legacy revision
(src/windows/mod.rs:623-691, callback in src/windows/mod.rs:843-965)

The older `Response::poll_read` uses the shared `ctx.status` field instead
of a channel: the poll reads the status, overwrites it with `Pending`, and
dispatches; `READ_COMPLETE` stores the transferred length in
`ctx.buf_size` and the status `DataWritten` (src/windows/mod.rs:939-945).
Only the buffer-drain arm restores the status; the end-of-stream arm
(`buf_size == 0`, src/windows/mod.rs:662-663) leaves it `Pending`. -/

/-- The response-relevant part of the legacy `NetworkContext`
(src/windows/mod.rs:44-63). -/
structure OldRespCtx where
  wakerSet : Bool
  status : NetworkStatus
  ioError : Option IoError
  bufSize : Nat
  deriving DecidableEq, Repr

/-- State of one legacy `Response` stream. -/
structure OldWinRespState where
  ctx : OldRespCtx
  readSize : Nat
  buf : List Nat
  pendingOp : Option RespNativeOp
  deriving DecidableEq, Repr

/-- `<Response as AsyncRead>::poll_read` (src/windows/mod.rs:623-691),
reading into a caller buffer of length `k`. -/
def oldRespPollRead (s : OldWinRespState) (k : Nat) : RespPoll × OldWinRespState :=
  let status := s.ctx.status
  let s := { s with ctx := { s.ctx with status := .pending } }
  match status with
  | .init =>
    (.pending, { s with ctx := { s.ctx with wakerSet := true },
                        pendingOp := some .queryDataAvailable })
  | .dataAvailable =>
    (.pending, { s with readSize := 0, pendingOp := some .readData })
  | .dataWritten =>
    if s.ctx.bufSize = 0 then
      (.ok [], s)
    else if s.ctx.bufSize ≤ s.readSize then
      (.pending, { s with pendingOp := some .queryDataAvailable })
    else
      let s := { s with ctx := { s.ctx with status := .dataWritten } }
      let n := min (min s.ctx.bufSize k) (s.ctx.bufSize - s.readSize)
      (.ok ((s.buf.drop s.readSize).take n), { s with readSize := s.readSize + n })
  | .pending => (.pending, s)
  | .error =>
    match s.ctx.ioError with
    | some e => (.ioError e, { s with ctx := { s.ctx with ioError := none } })
    | none => (.ioError { kind := .other, msg := "", rawOsCode := none }, s)
  | _ => (.diverged, s)

/-- `WINHTTP_CALLBACK_STATUS_READ_COMPLETE` for the legacy revision
(src/windows/mod.rs:939-945): store the transferred length, store status
`DataWritten`, wake. -/
def oldReadCompleteCallback (s : OldWinRespState) (chunk : List Nat) : OldWinRespState :=
  { s with buf := chunk ++ s.buf.drop chunk.length,
           pendingOp := none,
           ctx := { s.ctx with bufSize := chunk.length, status := .dataWritten } }

/-! ## macOS response stream (src/macos/response.rs:28-138)

Only the terminal behaviour is needed here: once the status callback has
stored `NetworkStatus::FinishedData` (kCFStreamEventEndEncountered,
src/macos/response.rs:194-196), every `poll_read` takes the
`FinishedData` arm (src/macos/response.rs:124-131), which closes the
native stream and returns `Poll::Ready(Ok(0))` without changing the
status. -/

/-- `NetworkStatus` of the macOS backend (src/macos/mod equivalent; the
`CFError` payload is the error's description string). -/
inductive MacNetworkStatus where
  | init
  | pending
  | sendingBody
  | bodySent
  | receivingData
  | finishedData
  | cfError (description : String)
  deriving DecidableEq, Repr

/-- State of one macOS `Response` stream: shared context status, the
transfer-buffer cursors, buffer contents. -/
structure MacRespState where
  status : MacNetworkStatus
  wakerSet : Bool
  readSize : Nat
  bufSize : Nat
  buf : List Nat
  deriving DecidableEq, Repr

/-- The arms of `<Response as AsyncRead>::poll_read`
(src/macos/response.rs:28-138) that do not touch the native stream: the
buffer-drain arm of `ReceivingData` (src/macos/response.rs:74-79), the
`FinishedData` arm, the `CFError` arm and the `Pending` arm.  The arms
that call into CFNetwork (`Init` registration, the `CFReadStreamRead`
refill loop) are outside this fragment and are represented by `diverged`;
the claims settled on this model only visit the embedded arms. -/
def macRespPollRead (s : MacRespState) (k : Nat) : RespPoll × MacRespState :=
  let s := { s with wakerSet := true }
  match s.status with
  | .receivingData =>
    if s.readSize < s.bufSize then
      let n := min (s.bufSize - s.readSize) k
      (.ok ((s.buf.drop s.readSize).take n), { s with readSize := s.readSize + n })
    else
      (.diverged, s)
  | .finishedData =>
    -- closes and releases the native read stream, then `Ready(Ok(0))`;
    -- `self.ctx.status` is not modified
    (.ok [], s)
  | .cfError d => (.ioError { kind := .other, msg := d, rawOsCode := none }, s)
  | .pending => (.pending, s)
  | _ => (.diverged, s)

/-- The CFStream events `response_status_callback` is registered for. -/
inductive CFStreamEvent where
  | openCompleted
  | hasBytesAvailable
  | errorOccurred (description : String)
  | endEncountered
  deriving DecidableEq, Repr

/-- `response_status_callback` (src/macos/response.rs:174-202): store the
status matching the event (`HasBytesAvailable → ReceivingData`,
`ErrorOccurred → CFError`, `EndEncountered → FinishedData`, anything else
untouched) and wake the stored waker.  Returns the new state and whether
the waker was invoked. -/
def response_status_callback (s : MacRespState) (ev : CFStreamEvent) : MacRespState × Bool :=
  let s' :=
    match ev with
    | .hasBytesAvailable => { s with status := .receivingData }
    | .errorOccurred d => { s with status := .cfError d }
    | .endEncountered => { s with status := .finishedData }
    | _ => s
  (s', s.wakerSet)

/-! ## macOS request body upload (src/macos/request.rs:230-315)

The `SendingBody` arm of `<Request as Future>::poll` is the buffered
variant: each poll (1) unless the `ReadWriteBuffer` is full, polls the
body source into the buffer's writable slice, a zero-length read marking
the body exhausted, (2) if the buffer is readable, issues one
`CFWriteStreamWrite` of the readable slice, of which the stream accepts
some positive number of bytes, and advances the read cursor by that much
(`increase_read_len`, which resets both cursors when they meet),
(3) transitions to `BodySent` — with a `wake_by_ref` — only when the body
is exhausted *and* the buffer is empty.

The body source is the `Cursor` the library itself installs for
`body_string`/`body_bytes` (src/prelude.rs:36-43): a read fills the
writable slice with as many of the remaining bytes as fit, and yields
`Ok(0)` once none remain.  `CFWriteStreamWrite`'s acceptance is the
oracle `accepts` (how many bytes the bound stream takes on the i-th
write; CFNetwork returns a positive count — `0` is the code's
`unreachable!()` arm — and the model lets the stream keep accepting, i.e.
`CFWriteStreamCanAcceptBytes` stays true, which only affects the wake
bookkeeping the code runs in that case).  The buffer size `S` is the
backend's `BUFFER_SIZE` constant, kept as a parameter. -/

/-- State of one macOS request in `SendingBody`, plus its native side.
`writes` records the successive `CFWriteStreamWrite` payloads
(observation); `acceptIdx` counts the write calls made so far. -/
structure MacReqState where
  status : MacNetworkStatus
  /-- bytes the `Cursor` body source has not yet yielded. -/
  bodyRemaining : List Nat
  /-- contents of the `ReadWriteBuffer`'s byte array. -/
  bufData : List Nat
  /-- `ReadWriteBuffer::read_len`. -/
  readLen : Nat
  /-- `ReadWriteBuffer::write_len`. -/
  writeLen : Nat
  sentBodyLen : Nat
  /-- observation: payloads of the `CFWriteStreamWrite` calls, in order. -/
  writes : List (List Nat)
  acceptIdx : Nat
  deriving DecidableEq, Repr

/-- The `SendingBody` arm of `<Request as Future>::poll`
(src/macos/request.rs:230-315).  Returns the new state and whether the
poll called `wake`/`wake_by_ref`. -/
def macReqPoll (S : Nat) (accepts : Nat → Nat) (s : MacReqState) : MacReqState × Bool :=
  match s.status with
  | .sendingBody =>
    -- step 1 (244-251): read from the body source unless the buffer is full
    let fill :=
      if s.writeLen = S then (s, false)
      else if s.bodyRemaining.isEmpty then (s, true)
      else
        let c := s.bodyRemaining.take (S - s.writeLen)
        ({ s with
            bodyRemaining := s.bodyRemaining.drop (S - s.writeLen),
            bufData := s.bufData.take s.writeLen ++ c ++ s.bufData.drop (s.writeLen + c.length),
            writeLen := s.writeLen + c.length }, false)
    let s1 := fill.1
    let finished := fill.2
    -- step 2 (265-298): CFWriteStreamWrite of the readable slice
    let s2 :=
      if s1.readLen < s1.writeLen then
        let w := min (accepts s1.acceptIdx) (s1.writeLen - s1.readLen)
        let piece := ((s1.bufData.take s1.writeLen).drop s1.readLen).take w
        let s' := { s1 with
            writes := s1.writes ++ [piece],
            sentBodyLen := s1.sentBodyLen + w,
            acceptIdx := s1.acceptIdx + 1 }
        -- `increase_read_len w`
        if s1.readLen + w = s1.writeLen then { s' with readLen := 0, writeLen := 0 }
        else { s' with readLen := s1.readLen + w }
      else s1
    -- step 3 (299-314): transition / wake bookkeeping
    if finished then
      if s2.readLen = 0 ∧ s2.writeLen = 0 then ({ s2 with status := .bodySent }, true)
      else (s2, true)
    else (s2, true)
  | _ => (s, false)

/-- Drive the macOS upload until the machine reaches `BodySent` (every
poll in `SendingBody` re-wakes itself in this model, since the bound
stream keeps accepting bytes). -/
def driveMacReq (S : Nat) (accepts : Nat → Nat) : Nat → MacReqState → Option MacReqState
  | 0, _ => none
  | fuel + 1, s =>
    if s.status = MacNetworkStatus.bodySent then some s
    else driveMacReq S accepts fuel (macReqPoll S accepts s).1

/-- Fresh upload state, right after the `Init` poll stored `SendingBody`
(src/macos/request.rs:227-228), for a body of `body` bytes. -/
def macReqInitState (S : Nat) (body : List Nat) : MacReqState :=
  { status := .sendingBody,
    bodyRemaining := body,
    bufData := List.replicate S 0,
    readLen := 0,
    writeLen := 0,
    sentBodyLen := 0,
    writes := [],
    acceptIdx := 0 }

/-- Invariant of the macOS upload: in `SendingBody`, the bytes already
written natively, the unread window of the transfer buffer, and the bytes
the source has not yet yielded concatenate to the whole body; the cursors
are within bounds, meet only at zero, and `sent_body_len` counts the
natively-written bytes. -/
def MacReqInv (S : Nat) (body : List Nat) (s : MacReqState) : Prop :=
  s.status = MacNetworkStatus.sendingBody ∧
  s.bufData.length = S ∧
  s.readLen ≤ s.writeLen ∧
  s.writeLen ≤ S ∧
  (s.readLen = s.writeLen → s.readLen = 0) ∧
  s.writes.flatten ++ ((s.bufData.take s.writeLen).drop s.readLen) ++ s.bodyRemaining = body ∧
  s.sentBodyLen = s.writes.flatten.length

/-! ## Legacy Windows response stream with its native side

For the round-trip statement the legacy `Response` of
src/windows/mod.rs:623-691 is paired with the WinHTTP worker: the worker
answers `WinHttpQueryDataAvailable` with `DATA_AVAILABLE` (which the
legacy `status_callback` turns into the status, src/windows/mod.rs:933-938)
and `WinHttpReadData` with `READ_COMPLETE`
(`oldReadCompleteCallback`, src/windows/mod.rs:939-945). -/

/-- A legacy response stream together with the native payload not yet
transferred. -/
structure OldRespSys where
  resp : OldWinRespState
  chunks : List (List Nat)
  deriving DecidableEq, Repr

/-- `poll_read` of the paired system: the native side is untouched. -/
def oldSysPollRead (s : OldRespSys) (k : Nat) : RespPoll × OldRespSys :=
  let pr := oldRespPollRead s.resp k
  (pr.1, { s with resp := pr.2 })

/-- The WinHTTP worker completing the legacy stream's pending native
call: `DATA_AVAILABLE` stores the `DataAvailable` status
(src/windows/mod.rs:933-938); `WinHttpReadData` copies the next chunk (or
nothing, at end-of-stream) and `READ_COMPLETE` records its length and the
`DataWritten` status (src/windows/mod.rs:939-945). -/
def oldSysNativeStep (s : OldRespSys) : OldRespSys :=
  match s.resp.pendingOp with
  | none => s
  | some RespNativeOp.queryDataAvailable =>
    { s with resp := { s.resp with pendingOp := none, ctx := { s.resp.ctx with status := NetworkStatus.dataAvailable } } }
  | some RespNativeOp.readData =>
    match s.chunks with
    | [] => { s with resp := oldReadCompleteCallback s.resp [] }
    | c :: rest => { resp := oldReadCompleteCallback s.resp c, chunks := rest }

/-- Driver for the legacy stream, like `driveResp`. -/
def driveOldResp : Nat → OldRespSys → Nat → List (List Nat) →
    Option (List (List Nat) × OldRespSys)
  | 0, _, _, _ => none
  | fuel + 1, s, k, acc =>
    match oldSysPollRead s k with
    | (.ok bytes, s') =>
      if bytes.isEmpty then some (acc, s') else driveOldResp fuel s' k (acc ++ [bytes])
    | (.pending, s') => driveOldResp fuel (oldSysNativeStep s') k acc
    | (.ioError _, _) => none
    | (.diverged, _) => none

/-- Legacy loop head: `DATA_AVAILABLE` has been stored for the pending
`WinHttpQueryDataAvailable`. -/
def oldLoopState (chunks : List (List Nat)) (buf : List Nat) (b r : Nat) : OldRespSys :=
  { resp := { ctx := { wakerSet := true, status := NetworkStatus.dataAvailable, ioError := none, bufSize := b },
              readSize := r, buf := buf, pendingOp := none },
    chunks := chunks }

/-- Legacy drain state: `READ_COMPLETE` parked `b` bytes and stored
`DataWritten`; the read cursor is at `r`. -/
def oldDrainState (chunks : List (List Nat)) (buf : List Nat) (b r : Nat) : OldRespSys :=
  { resp := { ctx := { wakerSet := true, status := NetworkStatus.dataWritten, ioError := none, bufSize := b },
              readSize := r, buf := buf, pendingOp := none },
    chunks := chunks }

/-- Fresh legacy response stream (src/windows/mod.rs:233-255: a
default-reset context, zeroed buffer) over native payload `chunks`. -/
def oldInitState (chunks : List (List Nat)) : OldRespSys :=
  { resp := { ctx := { wakerSet := false, status := NetworkStatus.init, ioError := none, bufSize := 0 },
              readSize := 0, buf := List.replicate BUF_SIZE 0, pendingOp := none },
    chunks := chunks }

/-! ## Callback-bridge error delivery for the response streams -/

/-- `WINHTTP_CALLBACK_STATUS_REQUEST_ERROR` for the legacy response
(src/windows/mod.rs:946-961 — the same `status_callback` serves request
and response phases): a non-cancelled code is mapped and stored with the
`Error` status and the waker woken (when stored); the cancelled code is
swallowed. -/
def oldRespErrorCallback (s : OldWinRespState) (code : Nat) : OldWinRespState × Bool :=
  if code ≠ ERROR_WINHTTP_OPERATION_CANCELLED then
    ({ s with ctx := { s.ctx with
        ioError := some (resolve_io_error_from_error_code code),
        status := NetworkStatus.error } }, s.ctx.wakerSet)
  else
    (s, false)

/-- `WINHTTP_CALLBACK_STATUS_REQUEST_ERROR` for the channel revision
(src/windows/callback.rs:135-149): a non-cancelled code is mapped and
sent on the channel as an `Error` event and the waker woken (when
stored); the cancelled code is swallowed. -/
def respErrorCallback (s : WinRespState) (code : Nat) : WinRespState × Bool :=
  if code ≠ ERROR_WINHTTP_OPERATION_CANCELLED then
    ({ s with events := s.events ++
        [WinHTTPCallbackEvent.ioError (resolve_io_error_from_error_code code)] },
      s.ctx.wakerSet)
  else
    (s, false)

/-! ## Concrete states and inputs used by counterexamples and witnesses -/

/-- The raw header text of the header-parsing test sentence. -/
def c6RawHeaders : String :=
  "HTTP/1.1 200 OK\r\nContent-Type: text/plain\r\nSet-Cookie: a=1\r\nSet-Cookie: b=2\r\n"

/-- A legacy Windows response stream that has just consumed its final
(empty) `WinHttpReadData`: the `READ_COMPLETE` callback for a zero-length
transfer (real end-of-stream) applied to the stream that was waiting for
it. -/
def c3LegacyEosState : OldWinRespState :=
  oldReadCompleteCallback
    { ctx := { wakerSet := true, status := .pending, ioError := none, bufSize := 2 },
      readSize := 2,
      buf := [10, 11],
      pendingOp := some .readData }
    []

/-- A channel-revision Windows response stream after end-of-stream
(`has_completed` set by the zero-length `READ_COMPLETE`). -/
def c3NewEosState : WinRespState :=
  { ctx := { wakerSet := true, hasCompleted := true, bufSize := 0 },
    readSize := 0,
    totalReadSize := 2,
    buf := [10, 11],
    events := [.dataWritten],
    pendingOp := none,
    chunks := [] }

/-- A macOS response stream whose status callback has stored
`FinishedData`. -/
def c3MacEosState : MacRespState :=
  { status := .finishedData, wakerSet := true, readSize := 0, bufSize := 0, buf := [] }

/-- An idle in-flight request (polled once, no event yet): the state on
which the error callback of the C4 scenario fires. -/
def c4IdleReqState : WinReqState :=
  { ctx := { wakerSet := true, status := .pending, ioError := none, rawHeaders := "" },
    bodyChunks := [],
    writes := [],
    pendingNative := none,
    nativeHeaders := "" }

/-- The request of the C4 scenario after the bridge delivered a native
`ERROR_WINHTTP_TIMEOUT` error event. -/
def c4ErredReqState : WinReqState := (reqErrorCallback c4IdleReqState 12002).1

/-- An idle legacy response stream (waiting for a callback, no error
yet): the state on which the legacy error callback of the C4 scenario
fires. -/
def c4IdleOldRespState : OldWinRespState :=
  { ctx := { wakerSet := true, status := .pending, ioError := none, bufSize := 0 },
    readSize := 0,
    buf := [],
    pendingOp := some .queryDataAvailable }

/-- An idle channel-revision response stream (cursor exhausted, channel
empty): the state on which the channel error callback of the C4 scenario
fires. -/
def c4IdleNewRespState : WinRespState :=
  { ctx := { wakerSet := true, hasCompleted := false, bufSize := 0 },
    readSize := 0,
    totalReadSize := 0,
    buf := [],
    events := [],
    pendingOp := some .queryDataAvailable,
    chunks := [] }

/-- A macOS response stream that has drained one of the three bytes the
refill loop (src/macos/response.rs:84-115) parked in the transfer buffer:
the state on which the end-of-stream event of the C1 scenario fires. -/
def c1MacMidDrainState : MacRespState :=
  { status := .receivingData, wakerSet := true, readSize := 1, bufSize := 3, buf := [5, 6, 7] }

/-- A macOS upload (4-byte buffer) whose body source is exhausted while
the transfer buffer still holds two unsent bytes: the state of the C2
zero-length-read scenario. -/
def c2MacZeroReadState : MacReqState :=
  { status := .sendingBody,
    bodyRemaining := [],
    bufData := [5, 6, 0, 0],
    readLen := 0,
    writeLen := 2,
    sentBodyLen := 0,
    writes := [],
    acceptIdx := 0 }

/-- Invariant of the transfer buffer, strengthened with the fact that the
cursors only meet at zero (they are reset together by
`increase_read_len`). -/
def RWInv {S : Nat} (b : ReadWriteBuffer S) : Prop :=
  b.read_len ≤ b.write_len ∧ b.write_len ≤ S ∧ (b.read_len = b.write_len → b.read_len = 0)

/-! # Theorems -/

/-- C5: the native-error-code mapper is a total function on native numeric
codes (total by construction — every code not matched by a recognized arm
takes the `from_raw_os_error` fallback, no panic path exists): the native
timeout code `ERROR_WINHTTP_TIMEOUT` maps to the timed-out kind, and every
code outside the recognized set maps to the generic `other` kind while
preserving the original numeric code. -/
theorem C5_error_mapper :
    (resolve_io_error_from_error_code ERROR_WINHTTP_TIMEOUT).kind = ErrorKind.timedOut ∧
    ∀ code : Nat, code ∉ recognizedWinhttpCodes →
      (resolve_io_error_from_error_code code).kind = ErrorKind.other ∧
      (resolve_io_error_from_error_code code).rawOsCode = some code := by
  refine ⟨by decide, ?_⟩
  intro code h
  have hfind : winhttpErrorTable.find? (fun e => e.1 = code) = none := by
    rw [List.find?_eq_none]
    intro x hx
    simp only [decide_eq_true_eq]
    intro hx1
    exact h (hx1 ▸ List.mem_map_of_mem _ hx)
  simp [resolve_io_error_from_error_code, hfind]

/-- Witness for C5 at the concrete unrecognized code 9999. -/
theorem C5_error_mapper_witness :
    (resolve_io_error_from_error_code 9999).kind = ErrorKind.other ∧
    (resolve_io_error_from_error_code 9999).rawOsCode = some 9999 :=
  C5_error_mapper.2 9999 (by decide)

/-- C6: on the test sentence's raw header text, the header-parsing step of
`recv` produces status code 200 and a header mapping in which the
duplicate `Set-Cookie` values are joined with `"; "`. -/
theorem C6_header_parsing :
    (parseResponseHead c6RawHeaders).1 = 200 ∧
    headerLookup (parseResponseHead c6RawHeaders).2 "Set-Cookie" = some "a=1; b=2" ∧
    headerLookup (parseResponseHead c6RawHeaders).2 "Content-Type" = some "text/plain" := by
  refine ⟨?_, ?_, ?_⟩ <;> decide

/-- C10: the macOS backend's `Response::recv` always returns a
`ResponseBody` whose status code is 0 and whose header map is empty; only
the body bytes are populated. -/
theorem C10_macos_recv_no_metadata (bodyBytes : List Nat) :
    (macosRecv bodyBytes).code = 0 ∧ (macosRecv bodyBytes).headers = [] ∧
    (macosRecv bodyBytes).data = bodyBytes :=
  ⟨rfl, rfl, rfl⟩

/-- C9 (the code as written): no variant of the `Method` enum of
src/lib.rs has the text form `"PATCH"` — the enum has exactly the eight
variants GET, POST, HEAD, PUT, TRACE, DELETE, CONNECT, OPTIONS — even
though `CommonClientExt::patch` (src/prelude.rs:129-132) calls
`Method::PATCH`; for every variant that does exist, `as_raw_str_wide` is
the UTF-16 encoding of `as_str` followed by a NUL terminator. -/
theorem C9_method_variants :
    (∀ m : Method, m.as_str ≠ "PATCH") ∧
    (∀ m : Method, m.as_raw_str_wide = utf16z m.as_str) := by
  constructor <;> intro m <;> cases m <;> decide

/-- C7: `get_or_connect_connection` returns the cached shared handle on a
hit with no native connect; on a miss it performs exactly one native
connect, inserts the handle and returns it; a failed native connect
surfaces through the error mapper and leaves the cache unchanged; and the
call never removes an entry. -/
theorem C7_connection_cache (cache : List (String × Nat))
    (connect : String → Except Nat Nat) (hostname : String) :
    (∀ h, cacheLookup cache hostname = some h →
      get_or_connect_connection cache connect hostname = (Except.ok h, cache, 0)) ∧
    (cacheLookup cache hostname = none →
      (∀ h, connect hostname = Except.ok h →
        get_or_connect_connection cache connect hostname =
          (Except.ok h, (hostname, h) :: cache, 1) ∧
        cacheLookup ((hostname, h) :: cache) hostname = some h) ∧
      (∀ code, connect hostname = Except.error code →
        get_or_connect_connection cache connect hostname =
          (Except.error (resolve_io_error_from_error_code code), cache, 1))) ∧
    (∀ entry, entry ∈ cache →
      entry ∈ (get_or_connect_connection cache connect hostname).2.1) := by
  refine ⟨?_, ?_, ?_⟩
  · intro h hh
    simp [get_or_connect_connection, hh]
  · intro hmiss
    constructor
    · intro h hc
      refine ⟨by simp [get_or_connect_connection, hmiss, hc], ?_⟩
      simp [cacheLookup]
    · intro code hc
      simp [get_or_connect_connection, hmiss, hc]
  · intro entry hmem
    unfold get_or_connect_connection
    cases hl : cacheLookup cache hostname with
    | some conn => simpa using hmem
    | none =>
      cases hc : connect hostname with
      | error code => simpa using hmem
      | ok conn => simp [hmem]

/-- Witness for C7: a hit on a one-entry cache, a successful miss on an
empty cache, and a failed miss on an empty cache, all at concrete
inputs. -/
theorem C7_connection_cache_witness :
    get_or_connect_connection [("a.com", 5)] (fun _ => Except.ok 7) "a.com" =
      (Except.ok 5, [("a.com", 5)], 0) ∧
    get_or_connect_connection [] (fun _ => Except.ok 7) "b.com" =
      (Except.ok 7, [("b.com", 7)], 1) ∧
    get_or_connect_connection [] (fun _ => Except.error 12029) "c.com" =
      (Except.error (resolve_io_error_from_error_code 12029), [], 1) :=
  ⟨(C7_connection_cache [("a.com", 5)] (fun _ => Except.ok 7) "a.com").1 5 (by decide),
   ((C7_connection_cache [] (fun _ => Except.ok 7) "b.com").2.1 (by decide)).1 7 rfl |>.1,
   ((C7_connection_cache [] (fun _ => Except.error 12029) "c.com").2.1 (by decide)).2 12029 rfl⟩

/-- Every valid cursor operation preserves the strengthened buffer
invariant. -/
theorem runRWOps_preserves_inv {S : Nat} :
    ∀ (ops : List RWOp) (b : ReadWriteBuffer S), RWInv b →
      ∀ b', runRWOps ops b = some b' → RWInv b' := by
  intro ops
  induction ops with
  | nil =>
    intro b hb b' h
    simp only [runRWOps, Option.some.injEq] at h
    exact h ▸ hb
  | cons op ops ih =>
    intro b hb b' h
    cases op with
    | incWrite n =>
      simp only [runRWOps] at h
      split at h
      · rename_i hn
        refine ih _ ?_ _ h
        simp only [ReadWriteBuffer.get_writable_len] at hn
        obtain ⟨h1, h2, h3⟩ := hb
        refine ⟨by simp [ReadWriteBuffer.increase_write_len]; omega,
                by simp [ReadWriteBuffer.increase_write_len]; omega, ?_⟩
        simp only [ReadWriteBuffer.increase_write_len]
        omega
      · exact absurd h (by simp)
    | incRead n =>
      simp only [runRWOps] at h
      split at h
      · rename_i hn
        refine ih _ ?_ _ h
        simp only [ReadWriteBuffer.get_readable_len] at hn
        obtain ⟨h1, h2, h3⟩ := hb
        simp only [ReadWriteBuffer.increase_read_len]
        split
        · refine ⟨?_, ?_, ?_⟩ <;> simp
        · rename_i hne
          refine ⟨?_, ?_, ?_⟩ <;> simp <;> omega
      · exact absurd h (by simp)

/-- C8: starting from the default state, every sequence of cursor
operations whose arguments stay within the current writable/readable
lengths preserves `read_len ≤ write_len ≤ S`, and `is_empty` holds exactly
when the two cursors are equal. -/
theorem C8_rwbuf_invariant (S : Nat) (ops : List RWOp) (b : ReadWriteBuffer S)
    (h : runRWOps ops (ReadWriteBuffer.default S) = some b) :
    (b.read_len ≤ b.write_len ∧ b.write_len ≤ S) ∧
    (b.is_empty = true ↔ b.read_len = b.write_len) := by
  have hinv : RWInv b :=
    runRWOps_preserves_inv ops (ReadWriteBuffer.default S)
      ⟨le_refl 0, Nat.zero_le S, fun _ => rfl⟩ b h
  obtain ⟨h1, h2, h3⟩ := hinv
  refine ⟨⟨h1, h2⟩, ?_⟩
  simp only [ReadWriteBuffer.is_empty, Bool.and_eq_true, decide_eq_true_eq]
  constructor
  · rintro ⟨hr, hw⟩
    omega
  · intro he
    have := h3 he
    omega

/-- Witness for C8: a concrete operation sequence on an 8-byte buffer. -/
theorem C8_rwbuf_invariant_witness :
    runRWOps [RWOp.incWrite 5, RWOp.incRead 2, RWOp.incWrite 3, RWOp.incRead 6]
      (ReadWriteBuffer.default 8) = some { read_len := 0, write_len := 0 } ∧
    ((0 ≤ 0 ∧ 0 ≤ 8) ∧
      (ReadWriteBuffer.is_empty (S := 8) { read_len := 0, write_len := 0 } = true ↔
        (0 : Nat) = 0)) :=
  ⟨by decide,
   C8_rwbuf_invariant 8 [RWOp.incWrite 5, RWOp.incRead 2, RWOp.incWrite 3, RWOp.incRead 6]
     { read_len := 0, write_len := 0 } (by decide)⟩

/-- C3 counterexample: a legacy Windows `Response` (src/windows/mod.rs)
that has just received the zero-length `READ_COMPLETE` reports
end-of-stream as `Ready(Ok(0))`, but the very next `poll_read` returns
`Pending` — not `Ready(Ok(0))` — because the poll's entry overwrote the
status with `Pending` and the end-of-stream arm never restores it. -/
theorem C3_counterexample :
    (oldRespPollRead c3LegacyEosState 1).1 = RespPoll.ok [] ∧
    (oldRespPollRead (oldRespPollRead c3LegacyEosState 1).2 1).1 = RespPoll.pending := by
  constructor <;> rfl

/-- C3 as amended: end-of-stream is reported as `Ready(Ok(0))`; in the
channel-revision Windows response (once `has_completed` is set) and in the
macOS response (once the status is `FinishedData`) the stream state is
left unchanged by the report, so every subsequent `poll_read` again
returns `Ready(Ok(0))` — never an error and never `Pending`.  (The legacy
Windows `Response::poll_read` instead returns `Pending` on polls after the
report, as the counterexample shows.) -/
theorem C3_amended (s : WinRespState) (k : Nat) (hw : s.ctx.wakerSet = true)
    (hc : s.ctx.hasCompleted = true) (m : MacRespState) (k' : Nat)
    (hm : m.status = MacNetworkStatus.finishedData) (hmw : m.wakerSet = true) :
    respPollRead s k = (RespPoll.ok [], s) ∧
    macRespPollRead m k' = (RespPoll.ok [], m) := by
  constructor
  · simp [respPollRead, hw, hc]
  · cases m
    simp_all [macRespPollRead]

/-- Witness for C3's amended theorem at the concrete post-end-of-stream
states. -/
theorem C3_amended_witness :
    respPollRead c3NewEosState 4 = (RespPoll.ok [], c3NewEosState) ∧
    macRespPollRead c3MacEosState 4 = (RespPoll.ok [], c3MacEosState) :=
  C3_amended c3NewEosState 4 rfl rfl c3MacEosState 4 rfl rfl

/-- C4 counterexample: after the bridge delivers a non-cancelled native
error (here `ERROR_WINHTTP_TIMEOUT`), the first poll of the request
resolves with the mapped error, but the claim's "every subsequent poll
resolves with that error" is false: the poll takes the stored error out
and had already overwritten the status with `Pending`, so the next poll
returns `Pending`, not the error. -/
theorem C4_counterexample :
    (reqPoll c4ErredReqState).1 =
      ReqPoll.ioError (resolve_io_error_from_error_code 12002) ∧
    (reqPoll (reqPoll c4ErredReqState).2.1).1 = ReqPoll.pending := by
  constructor <;> rfl

/-- C4 as amended: a native error event whose code is not
operation-cancelled, delivered by the callback bridge to a request
future, a legacy response stream or a channel-revision response stream,
stores (or enqueues) the mapped error, wakes exactly when a waker is
stored, and the next poll of the affected future or stream resolves with
that error; the error is taken out (or consumed from the channel) when
returned and the legacy poll entries overwrite the status with `Pending`,
so a poll made after the resolution (forbidden by the `Future` contract)
returns `Pending` rather than the error again.  An operation-cancelled
error event is swallowed by all three callbacks: no state change, no
wake. -/
theorem C4_amended (s : WinReqState) (so : OldWinRespState) (sn : WinRespState)
    (code : Nat) (h : code ≠ ERROR_WINHTTP_OPERATION_CANCELLED)
    (hsn1 : sn.events = []) (hsn2 : sn.ctx.wakerSet = true)
    (hsn3 : sn.ctx.hasCompleted = false)
    (hsn4 : ¬(sn.ctx.bufSize ≠ USIZE_MAX ∧ sn.readSize < sn.ctx.bufSize))
    (k : Nat) :
    ((reqErrorCallback s code).1.ctx.ioError =
        some (resolve_io_error_from_error_code code) ∧
      (reqErrorCallback s code).1.ctx.status = NetworkStatus.error ∧
      (reqErrorCallback s code).2 = s.ctx.wakerSet ∧
      (reqPoll (reqErrorCallback s code).1).1 =
        ReqPoll.ioError (resolve_io_error_from_error_code code) ∧
      (reqPoll (reqPoll (reqErrorCallback s code).1).2.1).1 = ReqPoll.pending) ∧
    ((oldRespErrorCallback so code).1.ctx.ioError =
        some (resolve_io_error_from_error_code code) ∧
      (oldRespErrorCallback so code).1.ctx.status = NetworkStatus.error ∧
      (oldRespErrorCallback so code).2 = so.ctx.wakerSet ∧
      (oldRespPollRead (oldRespErrorCallback so code).1 k).1 =
        RespPoll.ioError (resolve_io_error_from_error_code code) ∧
      (oldRespPollRead (oldRespPollRead (oldRespErrorCallback so code).1 k).2 k).1 =
        RespPoll.pending) ∧
    ((respErrorCallback sn code).1.events =
        [WinHTTPCallbackEvent.ioError (resolve_io_error_from_error_code code)] ∧
      (respErrorCallback sn code).2 = sn.ctx.wakerSet ∧
      (respPollRead (respErrorCallback sn code).1 k).1 =
        RespPoll.ioError (resolve_io_error_from_error_code code) ∧
      (respPollRead (respPollRead (respErrorCallback sn code).1 k).2 k).1 =
        RespPoll.pending) ∧
    ((∀ s' : WinReqState,
        reqErrorCallback s' ERROR_WINHTTP_OPERATION_CANCELLED = (s', false)) ∧
      (∀ so' : OldWinRespState,
        oldRespErrorCallback so' ERROR_WINHTTP_OPERATION_CANCELLED = (so', false)) ∧
      (∀ sn' : WinRespState,
        respErrorCallback sn' ERROR_WINHTTP_OPERATION_CANCELLED = (sn', false))) := by
  refine ⟨?_, ?_, ?_, ?_, ?_, ?_⟩
  · simp [reqErrorCallback, h, reqPoll]
  · simp [oldRespErrorCallback, h, oldRespPollRead]
  · obtain ⟨⟨w, hc, bsz⟩, rs, trs, bf, ev, po, ch⟩ := sn
    simp only at hsn1 hsn2 hsn3 hsn4
    subst hsn1 hsn2 hsn3
    simp [respErrorCallback, h, respPollRead, hsn4]
  · intro s'
    simp [reqErrorCallback]
  · intro so'
    simp [oldRespErrorCallback]
  · intro sn'
    simp [respErrorCallback]

/-- Each iteration of the body-upload loop pops one chunk from the body
source, writes it natively, and returns to the loop head; when the source
is exhausted the machine passes through `BodySent` and `HeadersReceived`
and resolves.  The native writes end up being exactly the source chunks,
appended in order. -/
theorem driveReq_loop (hdrs : String) :
    ∀ chunks ws : List (List Nat),
      driveReq (chunks.length + 3) (reqLoopState chunks ws hdrs) =
        some (hdrs, reqDoneState (ws ++ chunks) hdrs) := by
  intro chunks
  induction chunks with
  | nil =>
    intro ws
    rw [List.append_nil]
    rfl
  | cons c rest ih =>
    intro ws
    have h1 := ih (ws ++ [c])
    have happ : ws ++ c :: rest = (ws ++ [c]) ++ rest := by simp
    rw [happ]
    exact h1

/-- A prefix of the valid transfer-buffer window splits at the read
cursor: the bytes from `r`, the next `n` of them, then the rest. -/
theorem take_drop_split (l : List Nat) (b r n : Nat) (h : r + n ≤ b) :
    (l.take b).drop r = (l.drop r).take n ++ (l.take b).drop (r + n) := by
  rw [List.drop_take b r l, List.drop_take b (r + n) l]
  rw [show b - r = n + (b - (r + n)) by omega, List.take_add]
  congr 1
  rw [List.drop_drop]

/-- One unfolding of the response driver. -/
theorem driveResp_step (fuel : Nat) (s : WinRespState) (k : Nat) (acc : List (List Nat)) :
    driveResp (fuel + 1) s k acc =
      match respPollRead s k with
      | (.ok bytes, s') =>
        if bytes.isEmpty then some (acc, s') else driveResp fuel s' k (acc ++ [bytes])
      | (.pending, s') => driveResp fuel (respNativeStep s') k acc
      | (.ioError _, _) => none
      | (.diverged, _) => none := rfl

/-- Driver step on a `Pending` poll: the WinHTTP worker completes the
outstanding call, then the wake-up re-polls. -/
theorem driveResp_pending_step (fuel : Nat) (s : WinRespState) (k : Nat)
    (acc : List (List Nat)) (s2 : WinRespState)
    (h : respPollRead s k = (RespPoll.pending, s2)) :
    driveResp (fuel + 1) s k acc = driveResp fuel (respNativeStep s2) k acc := by
  rw [driveResp_step, h]

/-- Driver step on a non-empty `Ready(Ok(bytes))` poll: collect the chunk. -/
theorem driveResp_chunk_step (fuel : Nat) (s : WinRespState) (k : Nat)
    (acc : List (List Nat)) (s2 : WinRespState) (bytes : List Nat)
    (h : respPollRead s k = (RespPoll.ok bytes, s2)) (hb : bytes ≠ []) :
    driveResp (fuel + 1) s k acc = driveResp fuel s2 k (acc ++ [bytes]) := by
  rw [driveResp_step, h]
  simp [List.isEmpty_eq_false.mpr hb]

/-- Driver step on the `Ready(Ok(0))` poll: end-of-stream. -/
theorem driveResp_eos_step (fuel : Nat) (s : WinRespState) (k : Nat)
    (acc : List (List Nat)) (s2 : WinRespState)
    (h : respPollRead s k = (RespPoll.ok [], s2)) :
    driveResp (fuel + 1) s k acc = some (acc, s2) := by
  rw [driveResp_step, h]
  rfl

/-- Polling at the loop head (cursor exhausted) consumes the
`DataAvailable` event, resets the cursor, marks a read in flight and
issues `WinHttpReadData`. -/
theorem respPollRead_loopState (chunks : List (List Nat)) (buf : List Nat)
    (b r t k : Nat) (hcur : ¬(b ≠ USIZE_MAX ∧ r < b)) :
    respPollRead (respLoopState chunks buf b r t) k =
      (RespPoll.pending,
        { ctx := { wakerSet := true, hasCompleted := false, bufSize := USIZE_MAX },
          readSize := 0,
          totalReadSize := t,
          buf := buf,
          events := [],
          pendingOp := some RespNativeOp.readData,
          chunks := chunks }) := by
  simp [respPollRead, respLoopState, hcur]

/-- Polling while the transfer buffer still holds unread bytes copies out
`min (min buf_size k) (buf_size - read_size)` of them and only advances
the cursor — no event is consumed, no native call is issued. -/
theorem respPollRead_drainState (chunks : List (List Nat)) (buf2 : List Nat)
    (b r t k : Nat) (hb : b ≤ BUF_SIZE) (hr : r < b) :
    respPollRead (respDrainState chunks buf2 b r t) k =
      (RespPoll.ok ((buf2.drop r).take (min (min b k) (b - r))),
        respDrainState chunks buf2 b (r + min (min b k) (b - r))
          (t + min (min b k) (b - r))) := by
  have hbM : b ≠ USIZE_MAX := by
    have : BUF_SIZE < USIZE_MAX := by decide
    omega
  simp [respPollRead, respDrainState, hbM, hr]

/-- Polling with the cursor caught up consumes the pending `DataWritten`
event and, the chunk being non-empty, issues the next
`WinHttpQueryDataAvailable`. -/
theorem respPollRead_drainFull (chunks : List (List Nat)) (buf2 : List Nat)
    (b t k : Nat) (hb0 : b ≠ 0) :
    respPollRead (respDrainState chunks buf2 b b t) k =
      (RespPoll.pending,
        { ctx := { wakerSet := true, hasCompleted := false, bufSize := b },
          readSize := b,
          totalReadSize := t,
          buf := buf2,
          events := [],
          pendingOp := some RespNativeOp.queryDataAvailable,
          chunks := chunks }) := by
  simp [respPollRead, respDrainState, hb0]

/-- The worker answers `WinHttpQueryDataAvailable` with `DATA_AVAILABLE`:
back to the loop head. -/
theorem respNativeStep_query (chunks : List (List Nat)) (buf : List Nat) (b r t : Nat) :
    respNativeStep
      { ctx := { wakerSet := true, hasCompleted := false, bufSize := b },
        readSize := r,
        totalReadSize := t,
        buf := buf,
        events := [],
        pendingOp := some RespNativeOp.queryDataAvailable,
        chunks := chunks } = respLoopState chunks buf b r t := rfl

/-- The worker answers `WinHttpReadData` by copying the next (non-empty)
chunk into the transfer buffer and delivering `READ_COMPLETE`: the drain
state for that chunk. -/
theorem respNativeStep_read_cons (c : List Nat) (rest : List (List Nat))
    (buf : List Nat) (t : Nat) (hc : c ≠ []) :
    respNativeStep
      { ctx := { wakerSet := true, hasCompleted := false, bufSize := USIZE_MAX },
        readSize := 0,
        totalReadSize := t,
        buf := buf,
        events := [],
        pendingOp := some RespNativeOp.readData,
        chunks := c :: rest } =
      respDrainState rest (c ++ buf.drop c.length) c.length 0 t := by
  simp [respNativeStep, respDrainState, hc]

/-- The download loop, from the loop head: with every remaining chunk
non-empty and no larger than the transfer buffer, the driver reaches
end-of-stream and the concatenation of the returned chunks is exactly the
concatenation of the native chunks. -/
theorem driveResp_loop (k : Nat) (hk : 1 ≤ k) :
    ∀ chunks : List (List Nat), (∀ c ∈ chunks, c ≠ [] ∧ c.length ≤ BUF_SIZE) →
      ∀ (buf : List Nat) (b r t : Nat) (acc : List (List Nat)),
        buf.length = BUF_SIZE → ¬(b ≠ USIZE_MAX ∧ r < b) →
        ∃ fuel out s',
          driveResp fuel (respLoopState chunks buf b r t) k acc = some (acc ++ out, s') ∧
          out.flatten = chunks.flatten ∧ s'.ctx.hasCompleted = true := by
  intro chunks
  induction chunks with
  | nil =>
    intro _ buf b r t acc hbuf hcur
    refine ⟨0 + 1 + 1, [],
      { ctx := { wakerSet := true, hasCompleted := true, bufSize := 0 },
        readSize := 0,
        totalReadSize := t,
        buf := buf,
        events := [WinHTTPCallbackEvent.dataWritten],
        pendingOp := none,
        chunks := [] }, ?_, rfl, rfl⟩
    rw [driveResp_pending_step _ _ _ _ _ (respPollRead_loopState [] buf b r t k hcur)]
    rw [List.append_nil]
    rfl
  | cons c rest ih =>
    intro hch buf b r t acc hbuf hcur
    have hc := hch c (List.mem_cons_self c rest)
    have hrest : ∀ x ∈ rest, x ≠ [] ∧ x.length ≤ BUF_SIZE :=
      fun x hx => hch x (List.mem_cons_of_mem c hx)
    have hclen : 0 < c.length := List.length_pos.mpr hc.1
    have hbuf2len : (c ++ buf.drop c.length).length = BUF_SIZE := by
      have h2 := hc.2
      simp [List.length_append, List.length_drop, hbuf]
      omega
    have drain : ∀ d r' t' acc', d = c.length - r' → r' < c.length →
        ∃ fuel out s',
          driveResp fuel
              (respDrainState rest (c ++ buf.drop c.length) c.length r' t') k acc' =
            some (acc' ++ out, s') ∧
          out.flatten =
            ((c ++ buf.drop c.length).take c.length).drop r' ++ rest.flatten ∧
          s'.ctx.hasCompleted = true := by
      intro d
      induction d using Nat.strong_induction_on with
      | _ d iih =>
        intro r' t' acc' hd hr'
        have hn1 : 1 ≤ min (min c.length k) (c.length - r') := by omega
        have hpoll :=
          respPollRead_drainState rest (c ++ buf.drop c.length) c.length r' t' k hc.2 hr'
        have hnb : min (min c.length k) (c.length - r') ≤ c.length - r' :=
          Nat.min_le_right _ _
        have hpiece :
            ((c ++ buf.drop c.length).drop r').take (min (min c.length k) (c.length - r')) ≠
              [] := by
          apply List.ne_nil_of_length_pos
          rw [List.length_take, List.length_drop, hbuf2len]
          have : BUF_SIZE = 8 * 1024 := rfl
          omega
        by_cases hend : r' + min (min c.length k) (c.length - r') = c.length
        · obtain ⟨f, out, s', hdrive, hflat, hcomp⟩ :=
            ih hrest (c ++ buf.drop c.length) c.length c.length
              (t' + min (min c.length k) (c.length - r'))
              (acc' ++ [((c ++ buf.drop c.length).drop r').take
                (min (min c.length k) (c.length - r'))])
              hbuf2len (by simp)
          refine ⟨f + 1 + 1,
            (((c ++ buf.drop c.length).drop r').take
              (min (min c.length k) (c.length - r'))) :: out, s', ?_, ?_, hcomp⟩
          · rw [driveResp_chunk_step _ _ _ _ _ _ hpoll hpiece, hend]
            rw [driveResp_pending_step _ _ _ _ _
              (respPollRead_drainFull rest (c ++ buf.drop c.length) c.length
                (t' + min (min c.length k) (c.length - r')) k (by omega))]
            rw [respNativeStep_query, hdrive]
            simp
          · have hn : min (min c.length k) (c.length - r') = c.length - r' := by omega
            rw [List.flatten_cons, hflat, hn]
            rw [List.drop_take c.length r' (c ++ buf.drop c.length)]
        · obtain ⟨f, out, s', hdrive, hflat, hcomp⟩ :=
            iih (c.length - (r' + min (min c.length k) (c.length - r')))
              (by omega)
              (r' + min (min c.length k) (c.length - r'))
              (t' + min (min c.length k) (c.length - r'))
              (acc' ++ [((c ++ buf.drop c.length).drop r').take
                (min (min c.length k) (c.length - r'))])
              rfl (by omega)
          refine ⟨f + 1,
            (((c ++ buf.drop c.length).drop r').take
              (min (min c.length k) (c.length - r'))) :: out, s', ?_, ?_, hcomp⟩
          · rw [driveResp_chunk_step _ _ _ _ _ _ hpoll hpiece, hdrive]
            simp
          · rw [List.flatten_cons, hflat, ← List.append_assoc]
            congr 1
            exact (take_drop_split (c ++ buf.drop c.length) c.length r'
              (min (min c.length k) (c.length - r')) (by omega)).symm
    obtain ⟨f, out, s', hdrive, hflat, hcomp⟩ := drain (c.length - 0) 0 t acc rfl hclen
    refine ⟨f + 1, out, s', ?_, ?_, hcomp⟩
    · rw [driveResp_pending_step _ _ _ _ _
        (respPollRead_loopState (c :: rest) buf b r t k hcur)]
      rw [respNativeStep_read_cons c rest buf t hc.1]
      exact hdrive
    · rw [hflat, List.flatten_cons]
      congr 1
      rw [List.drop_zero]
      exact List.take_left c (buf.drop c.length)

/-- One unfolding of the legacy response driver. -/
theorem driveOldResp_step (fuel : Nat) (s : OldRespSys) (k : Nat) (acc : List (List Nat)) :
    driveOldResp (fuel + 1) s k acc =
      match oldSysPollRead s k with
      | (.ok bytes, s') =>
        if bytes.isEmpty then some (acc, s') else driveOldResp fuel s' k (acc ++ [bytes])
      | (.pending, s') => driveOldResp fuel (oldSysNativeStep s') k acc
      | (.ioError _, _) => none
      | (.diverged, _) => none := rfl

/-- Legacy driver step on a `Pending` poll. -/
theorem driveOldResp_pending_step (fuel : Nat) (s : OldRespSys) (k : Nat)
    (acc : List (List Nat)) (s2 : OldRespSys)
    (h : oldSysPollRead s k = (RespPoll.pending, s2)) :
    driveOldResp (fuel + 1) s k acc = driveOldResp fuel (oldSysNativeStep s2) k acc := by
  rw [driveOldResp_step, h]

/-- Legacy driver step on a non-empty `Ready(Ok(bytes))` poll. -/
theorem driveOldResp_chunk_step (fuel : Nat) (s : OldRespSys) (k : Nat)
    (acc : List (List Nat)) (s2 : OldRespSys) (bytes : List Nat)
    (h : oldSysPollRead s k = (RespPoll.ok bytes, s2)) (hb : bytes ≠ []) :
    driveOldResp (fuel + 1) s k acc = driveOldResp fuel s2 k (acc ++ [bytes]) := by
  rw [driveOldResp_step, h]
  simp [List.isEmpty_eq_false.mpr hb]

/-- Polling the legacy stream at the loop head consumes the
`DataAvailable` status, resets the cursor and issues `WinHttpReadData`. -/
theorem oldSysPollRead_loopState (chunks : List (List Nat)) (buf : List Nat) (b r k : Nat) :
    oldSysPollRead (oldLoopState chunks buf b r) k =
      (RespPoll.pending,
        { resp := { ctx := { wakerSet := true, status := NetworkStatus.pending, ioError := none, bufSize := b },
                    readSize := 0, buf := buf, pendingOp := some RespNativeOp.readData },
          chunks := chunks }) := rfl

/-- Polling the legacy stream while the transfer buffer holds unread
bytes restores the `DataWritten` status and copies out through the read
cursor — no native call is issued. -/
theorem oldSysPollRead_drainState (chunks : List (List Nat)) (buf2 : List Nat)
    (b r k : Nat) (hb0 : b ≠ 0) (hrb : r < b) :
    oldSysPollRead (oldDrainState chunks buf2 b r) k =
      (RespPoll.ok ((buf2.drop r).take (min (min b k) (b - r))),
        oldDrainState chunks buf2 b (r + min (min b k) (b - r))) := by
  simp [oldSysPollRead, oldRespPollRead, oldDrainState, hb0, Nat.not_le.mpr hrb]

/-- Polling the legacy stream with the cursor caught up issues the next
`WinHttpQueryDataAvailable`. -/
theorem oldSysPollRead_drainFull (chunks : List (List Nat)) (buf2 : List Nat)
    (b k : Nat) (hb0 : b ≠ 0) :
    oldSysPollRead (oldDrainState chunks buf2 b b) k =
      (RespPoll.pending,
        { resp := { ctx := { wakerSet := true, status := NetworkStatus.pending, ioError := none, bufSize := b },
                    readSize := b, buf := buf2, pendingOp := some RespNativeOp.queryDataAvailable },
          chunks := chunks }) := by
  simp [oldSysPollRead, oldRespPollRead, oldDrainState, hb0]

/-- The worker answers the legacy `WinHttpQueryDataAvailable` with
`DATA_AVAILABLE`: back to the loop head. -/
theorem oldSysNativeStep_query (chunks : List (List Nat)) (buf : List Nat) (b r : Nat) :
    oldSysNativeStep
      { resp := { ctx := { wakerSet := true, status := NetworkStatus.pending, ioError := none, bufSize := b },
                  readSize := r, buf := buf, pendingOp := some RespNativeOp.queryDataAvailable },
        chunks := chunks } = oldLoopState chunks buf b r := rfl

/-- The worker answers the legacy `WinHttpReadData` with the next chunk's
`READ_COMPLETE`: the drain state for that chunk. -/
theorem oldSysNativeStep_read_cons (c : List Nat) (rest : List (List Nat))
    (buf : List Nat) (b : Nat) :
    oldSysNativeStep
      { resp := { ctx := { wakerSet := true, status := NetworkStatus.pending, ioError := none, bufSize := b },
                  readSize := 0, buf := buf, pendingOp := some RespNativeOp.readData },
        chunks := c :: rest } =
      oldDrainState rest (c ++ buf.drop c.length) c.length 0 := rfl

/-- The legacy download loop: with every remaining chunk non-empty and no
larger than the transfer buffer, the driver reaches the `Ok(0)`
end-of-stream and the concatenation of the returned chunks equals the
concatenation of the native chunks. -/
theorem driveOldResp_loop (k : Nat) (hk : 1 ≤ k) :
    ∀ chunks : List (List Nat), (∀ c ∈ chunks, c ≠ [] ∧ c.length ≤ BUF_SIZE) →
      ∀ (buf : List Nat) (b r : Nat) (acc : List (List Nat)),
        buf.length = BUF_SIZE →
        ∃ fuel out s',
          driveOldResp fuel (oldLoopState chunks buf b r) k acc = some (acc ++ out, s') ∧
          out.flatten = chunks.flatten ∧
          s'.resp.ctx.bufSize = 0 ∧ s'.resp.ctx.status = NetworkStatus.pending := by
  intro chunks
  induction chunks with
  | nil =>
    intro _ buf b r acc hbuf
    refine ⟨0 + 1 + 1, [],
      { resp := { ctx := { wakerSet := true, status := NetworkStatus.pending, ioError := none, bufSize := 0 },
                  readSize := 0, buf := buf, pendingOp := none },
        chunks := [] }, ?_, rfl, rfl, rfl⟩
    rw [driveOldResp_pending_step _ _ _ _ _ (oldSysPollRead_loopState [] buf b r k)]
    rw [List.append_nil]
    rfl
  | cons c rest ih =>
    intro hch buf b r acc hbuf
    have hc := hch c (List.mem_cons_self c rest)
    have hrest : ∀ x ∈ rest, x ≠ [] ∧ x.length ≤ BUF_SIZE :=
      fun x hx => hch x (List.mem_cons_of_mem c hx)
    have hclen : 0 < c.length := List.length_pos.mpr hc.1
    have hbuf2len : (c ++ buf.drop c.length).length = BUF_SIZE := by
      have h2 := hc.2
      simp [List.length_append, List.length_drop, hbuf]
      omega
    have drain : ∀ d r' acc', d = c.length - r' → r' < c.length →
        ∃ fuel out s',
          driveOldResp fuel
              (oldDrainState rest (c ++ buf.drop c.length) c.length r') k acc' =
            some (acc' ++ out, s') ∧
          out.flatten =
            ((c ++ buf.drop c.length).take c.length).drop r' ++ rest.flatten ∧
          s'.resp.ctx.bufSize = 0 ∧ s'.resp.ctx.status = NetworkStatus.pending := by
      intro d
      induction d using Nat.strong_induction_on with
      | _ d iih =>
        intro r' acc' hd hr'
        have hn1 : 1 ≤ min (min c.length k) (c.length - r') := by omega
        have hpoll :=
          oldSysPollRead_drainState rest (c ++ buf.drop c.length) c.length r' k
            (by omega) hr'
        have hnb : min (min c.length k) (c.length - r') ≤ c.length - r' :=
          Nat.min_le_right _ _
        have hpiece :
            ((c ++ buf.drop c.length).drop r').take
              (min (min c.length k) (c.length - r')) ≠ [] := by
          apply List.ne_nil_of_length_pos
          rw [List.length_take, List.length_drop, hbuf2len]
          have : BUF_SIZE = 8 * 1024 := rfl
          omega
        by_cases hend : r' + min (min c.length k) (c.length - r') = c.length
        · obtain ⟨f, out, s', hdrive, hflat, hbz, hst⟩ :=
            ih hrest (c ++ buf.drop c.length) c.length c.length
              (acc' ++ [((c ++ buf.drop c.length).drop r').take
                (min (min c.length k) (c.length - r'))])
              hbuf2len
          refine ⟨f + 1 + 1,
            (((c ++ buf.drop c.length).drop r').take
              (min (min c.length k) (c.length - r'))) :: out, s', ?_, ?_, hbz, hst⟩
          · rw [driveOldResp_chunk_step _ _ _ _ _ _ hpoll hpiece, hend]
            rw [driveOldResp_pending_step _ _ _ _ _
              (oldSysPollRead_drainFull rest (c ++ buf.drop c.length) c.length k
                (by omega))]
            rw [oldSysNativeStep_query, hdrive]
            simp
          · have hn : min (min c.length k) (c.length - r') = c.length - r' := by omega
            rw [List.flatten_cons, hflat, hn]
            rw [List.drop_take c.length r' (c ++ buf.drop c.length)]
        · obtain ⟨f, out, s', hdrive, hflat, hbz, hst⟩ :=
            iih (c.length - (r' + min (min c.length k) (c.length - r')))
              (by omega)
              (r' + min (min c.length k) (c.length - r'))
              (acc' ++ [((c ++ buf.drop c.length).drop r').take
                (min (min c.length k) (c.length - r'))])
              rfl (by omega)
          refine ⟨f + 1,
            (((c ++ buf.drop c.length).drop r').take
              (min (min c.length k) (c.length - r'))) :: out, s', ?_, ?_, hbz, hst⟩
          · rw [driveOldResp_chunk_step _ _ _ _ _ _ hpoll hpiece, hdrive]
            simp
          · rw [List.flatten_cons, hflat, ← List.append_assoc]
            congr 1
            exact (take_drop_split (c ++ buf.drop c.length) c.length r'
              (min (min c.length k) (c.length - r')) (by omega)).symm
    obtain ⟨f, out, s', hdrive, hflat, hbz, hst⟩ := drain (c.length - 0) 0 acc rfl hclen
    refine ⟨f + 1, out, s', ?_, ?_, hbz, hst⟩
    · rw [driveOldResp_pending_step _ _ _ _ _
        (oldSysPollRead_loopState (c :: rest) buf b r k)]
      rw [oldSysNativeStep_read_cons c rest buf b]
      exact hdrive
    · rw [hflat, List.flatten_cons]
      congr 1
      rw [List.drop_zero]
      exact List.take_left c (buf.drop c.length)

/-- Cursor window length inside the valid region of a fixed buffer. -/
theorem window_length (bufD : List Nat) (rl wl : Nat) (h : wl ≤ bufD.length) :
    ((bufD.take wl).drop rl).length = wl - rl := by
  simp [List.length_drop, List.length_take]
  omega

theorem macReqPoll_step (S : Nat) (hS : 1 ≤ S) (accepts : Nat → Nat)
    (hacc : ∀ i, 1 ≤ accepts i) (body : List Nat) (s : MacReqState)
    (hinv : MacReqInv S body s) :
    ((macReqPoll S accepts s).1.status = MacNetworkStatus.bodySent ∧
      (macReqPoll S accepts s).1.writes.flatten = body ∧
      (macReqPoll S accepts s).1.sentBodyLen = body.length) ∨
    (MacReqInv S body (macReqPoll S accepts s).1 ∧
      (macReqPoll S accepts s).1.bodyRemaining.length +
          ((macReqPoll S accepts s).1.writeLen - (macReqPoll S accepts s).1.readLen) <
        s.bodyRemaining.length + (s.writeLen - s.readLen)) := by
  obtain ⟨st, br, bufD, rl, wl, sbl, ws, ai⟩ := s
  unfold MacReqInv at hinv
  obtain ⟨hst, hlen, hrw, hwS, hmeet, hflat, hsent⟩ := hinv
  simp only at hst hlen hrw hwS hmeet hflat hsent
  subst hst
  by_cases hA : wl = S
  · -- buffer full: the fill step is skipped, a write from the cursor happens
    have hrl : rl < S := by
      by_cases he : rl = wl
      · have := hmeet he; omega
      · omega
    have hw1 : 1 ≤ min (accepts ai) (S - rl) := by
      have := hacc ai; omega
    by_cases hD : rl + min (accepts ai) (S - rl) = S
    · right
      have hpoll : macReqPoll S accepts
          ⟨.sendingBody, br, bufD, rl, wl, sbl, ws, ai⟩ =
          (⟨.sendingBody, br, bufD, 0, 0, sbl + min (accepts ai) (S - rl),
            ws ++ [((bufD.take S).drop rl).take (min (accepts ai) (S - rl))], ai + 1⟩, true) := by
        simp [macReqPoll, hA, hrl, hD]
      rw [hpoll]
      have hwin : List.take (accepts ai ⊓ (S - rl)) (List.drop rl (List.take S bufD)) =
          List.drop rl (List.take S bufD) := by
        apply List.take_of_length_le
        rw [window_length bufD rl S (by omega)]
        omega
      constructor
      · unfold MacReqInv
        rw [hA] at hflat
        refine ⟨rfl, hlen, le_refl 0, Nat.zero_le S, fun _ => rfl, ?_, ?_⟩
        · simp only [hwin, List.flatten_append, List.flatten_cons, List.flatten_nil,
            List.append_nil, List.take_zero, List.drop_nil, List.append_assoc]
          simpa [List.append_assoc] using hflat
        · simp only [hwin, List.flatten_append, List.flatten_cons, List.flatten_nil,
            List.append_nil, List.length_append, List.length_drop, List.length_take, hlen, hsent]
          omega
      · simp only []
        omega
    · right
      have hpoll : macReqPoll S accepts
          ⟨.sendingBody, br, bufD, rl, wl, sbl, ws, ai⟩ =
          (⟨.sendingBody, br, bufD, rl + min (accepts ai) (S - rl), S,
            sbl + min (accepts ai) (S - rl),
            ws ++ [((bufD.take S).drop rl).take (min (accepts ai) (S - rl))], ai + 1⟩, true) := by
        simp [macReqPoll, hA, hrl, hD]
      rw [hpoll]
      constructor
      · unfold MacReqInv
        rw [hA] at hflat
        refine ⟨rfl, hlen, by simp only []; omega, le_refl S, fun hc => absurd hc hD, ?_, ?_⟩
        · have h1 : List.drop (rl + accepts ai ⊓ (S - rl)) (List.take S bufD) =
              List.drop (accepts ai ⊓ (S - rl)) (List.drop rl (List.take S bufD)) :=
            (List.drop_drop _ _ _).symm
          rw [h1, ← hflat]
          simp only [List.flatten_append, List.flatten_cons, List.flatten_nil, List.append_nil,
            List.append_assoc]
          rw [← List.append_assoc
            (List.take (accepts ai ⊓ (S - rl)) (List.drop rl (List.take S bufD)))
            (List.drop (accepts ai ⊓ (S - rl)) (List.drop rl (List.take S bufD))) br,
            List.take_append_drop]
        · simp only [List.flatten_append, List.flatten_cons, List.flatten_nil,
            List.append_nil, List.length_append, List.length_drop, List.length_take, hlen, hsent]
          omega
      · simp only []
        omega
  · -- buffer not full: the body source is polled first
    rcases br with _ | ⟨x, br'⟩
    · -- the source yields `Ok(0)`: body exhausted
      by_cases hrl : rl < wl
      · -- unsent bytes remain: a `CFWriteStreamWrite` is still issued
        have hw1 : 1 ≤ min (accepts ai) (wl - rl) := by
          have := hacc ai; omega
        by_cases hD : rl + min (accepts ai) (wl - rl) = wl
        · -- the write empties the buffer: `BodySent` in this same poll
          left
          have hpoll : macReqPoll S accepts
              ⟨.sendingBody, [], bufD, rl, wl, sbl, ws, ai⟩ =
              (⟨.bodySent, [], bufD, 0, 0, sbl + min (accepts ai) (wl - rl),
                ws ++ [((bufD.take wl).drop rl).take (min (accepts ai) (wl - rl))], ai + 1⟩,
                true) := by
            simp [macReqPoll, hA, hrl, hD]
          rw [hpoll]
          have hwin : List.take (accepts ai ⊓ (wl - rl)) (List.drop rl (List.take wl bufD)) =
              List.drop rl (List.take wl bufD) := by
            apply List.take_of_length_le
            rw [window_length bufD rl wl (by omega)]
            omega
          refine ⟨rfl, ?_, ?_⟩
          · simp only [hwin, List.flatten_append, List.flatten_cons, List.flatten_nil,
              List.append_nil]
            simpa using hflat
          · simp only [hwin, List.flatten_append, List.flatten_cons, List.flatten_nil,
              List.append_nil, List.length_append, List.length_drop, List.length_take,
              hlen, hsent]
            rw [← hflat]
            simp [List.length_drop, List.length_take, hlen]
            omega
        · -- partial write: stays in `SendingBody`
          right
          have hwl0 : ¬wl = 0 := by omega
          have hpoll : macReqPoll S accepts
              ⟨.sendingBody, [], bufD, rl, wl, sbl, ws, ai⟩ =
              (⟨.sendingBody, [], bufD, rl + min (accepts ai) (wl - rl), wl,
                sbl + min (accepts ai) (wl - rl),
                ws ++ [((bufD.take wl).drop rl).take (min (accepts ai) (wl - rl))], ai + 1⟩,
                true) := by
            simp [macReqPoll, hA, hrl, hD, hwl0]
          rw [hpoll]
          constructor
          · unfold MacReqInv
            refine ⟨rfl, hlen, by simp only []; omega, hwS, fun hc => absurd hc hD, ?_, ?_⟩
            · have h1 : List.drop (rl + accepts ai ⊓ (wl - rl)) (List.take wl bufD) =
                  List.drop (accepts ai ⊓ (wl - rl)) (List.drop rl (List.take wl bufD)) :=
                (List.drop_drop _ _ _).symm
              rw [h1, ← hflat]
              simp only [List.flatten_append, List.flatten_cons, List.flatten_nil,
                List.append_nil, List.append_assoc]
              rw [List.take_append_drop]
            · simp only [List.flatten_append, List.flatten_cons, List.flatten_nil,
                List.append_nil, List.length_append, List.length_drop, List.length_take,
                hlen, hsent]
              omega
          · simp only []
            omega
      · -- buffer already empty: immediate `BodySent`, no write at all
        have he : rl = wl := by omega
        have hr0 : rl = 0 := hmeet he
        have hw0 : wl = 0 := by omega
        subst hr0
        subst hw0
        left
        have hpoll : macReqPoll S accepts
            ⟨.sendingBody, [], bufD, 0, 0, sbl, ws, ai⟩ =
            (⟨.bodySent, [], bufD, 0, 0, sbl, ws, ai⟩, true) := by
          simp [macReqPoll, hA]
        rw [hpoll]
        simp only [List.take_zero, List.drop_nil, List.append_nil] at hflat
        exact ⟨rfl, hflat, by rw [hsent, hflat]⟩
    · -- the source yields bytes: they are appended to the buffer, then written
      right
      have hSwl : 1 ≤ S - wl := by omega
      have hxbr : (x :: br').length = br'.length + 1 := by simp
      have hm1 : 1 ≤ (S - wl) ⊓ (br'.length + 1) := by omega
      have hr1 : rl < wl + ((S - wl) ⊓ (br'.length + 1)) := by omega
      have hbr1 : (List.drop (S - wl) (x :: br')).length = br'.length + 1 - (S - wl) := by
        simp [List.length_drop]
      have hw1 : 1 ≤ accepts ai ⊓ (wl + ((S - wl) ⊓ (br'.length + 1)) - rl) := by
        have := hacc ai; omega
      have hlen1 : (List.take wl bufD ++ (List.take (S - wl) (x :: br') ++ List.drop (wl + ((S - wl) ⊓ (br'.length + 1))) bufD)).length = S := by
        simp [List.length_append, List.length_take, List.length_drop, hlen]
        omega
      have hwin : List.drop rl (List.take (wl + ((S - wl) ⊓ (br'.length + 1))) (List.take wl bufD ++ (List.take (S - wl) (x :: br') ++ List.drop (wl + ((S - wl) ⊓ (br'.length + 1))) bufD))) = List.drop rl (List.take wl bufD) ++ List.take (S - wl) (x :: br') := by
        have h1 : List.take (wl + ((S - wl) ⊓ (br'.length + 1))) (List.take wl bufD ++ (List.take (S - wl) (x :: br') ++ List.drop (wl + ((S - wl) ⊓ (br'.length + 1))) bufD)) = List.take wl bufD ++ List.take (S - wl) (x :: br') := by
          rw [← List.append_assoc]
          apply List.take_left'
          simp [List.length_take, hlen]
          omega
        rw [h1, List.drop_append_of_le_length (by simp [List.length_take, hlen]; omega)]
      have hwlen : (List.drop rl (List.take (wl + ((S - wl) ⊓ (br'.length + 1))) (List.take wl bufD ++ (List.take (S - wl) (x :: br') ++ List.drop (wl + ((S - wl) ⊓ (br'.length + 1))) bufD)))).length = wl + ((S - wl) ⊓ (br'.length + 1)) - rl := by
        rw [hwin]
        simp [List.length_append, List.length_drop, List.length_take, hlen]
        omega
      by_cases hD : rl + (accepts ai ⊓ (wl + ((S - wl) ⊓ (br'.length + 1)) - rl)) = wl + ((S - wl) ⊓ (br'.length + 1))
      · have hpoll : macReqPoll S accepts
            ⟨.sendingBody, x :: br', bufD, rl, wl, sbl, ws, ai⟩ =
            (⟨.sendingBody, List.drop (S - wl) (x :: br'), List.take wl bufD ++ (List.take (S - wl) (x :: br') ++ List.drop (wl + ((S - wl) ⊓ (br'.length + 1))) bufD), 0, 0, sbl + (accepts ai ⊓ (wl + ((S - wl) ⊓ (br'.length + 1)) - rl)),
              ws ++ [List.take (accepts ai ⊓ (wl + ((S - wl) ⊓ (br'.length + 1)) - rl)) (List.drop rl (List.take (wl + ((S - wl) ⊓ (br'.length + 1))) (List.take wl bufD ++ (List.take (S - wl) (x :: br') ++ List.drop (wl + ((S - wl) ⊓ (br'.length + 1))) bufD))))], ai + 1⟩, true) := by
          simp [macReqPoll, hA, hr1, hD]
        rw [hpoll]
        constructor
        · unfold MacReqInv
          refine ⟨rfl, hlen1, le_refl 0, Nat.zero_le S, fun _ => rfl, ?_, ?_⟩
          · have hpw : List.take (accepts ai ⊓ (wl + ((S - wl) ⊓ (br'.length + 1)) - rl)) (List.drop rl (List.take (wl + ((S - wl) ⊓ (br'.length + 1))) (List.take wl bufD ++ (List.take (S - wl) (x :: br') ++ List.drop (wl + ((S - wl) ⊓ (br'.length + 1))) bufD)))) = List.drop rl (List.take (wl + ((S - wl) ⊓ (br'.length + 1))) (List.take wl bufD ++ (List.take (S - wl) (x :: br') ++ List.drop (wl + ((S - wl) ⊓ (br'.length + 1))) bufD))) := by
              apply List.take_of_length_le
              rw [hwlen]
              omega
            rw [hpw, hwin, ← hflat]
            simp only [List.take_zero, List.drop_nil, List.flatten_append, List.flatten_cons,
              List.flatten_nil, List.append_nil, List.append_assoc]
            conv_rhs => rw [← List.take_append_drop (S - wl) (x :: br')]
          · simp only [List.flatten_append, List.flatten_cons, List.flatten_nil,
              List.append_nil, List.length_append, List.length_take, hwlen, hsent]
            omega
        · simp only [hbr1]
          omega
      · have hpoll : macReqPoll S accepts
            ⟨.sendingBody, x :: br', bufD, rl, wl, sbl, ws, ai⟩ =
            (⟨.sendingBody, List.drop (S - wl) (x :: br'), List.take wl bufD ++ (List.take (S - wl) (x :: br') ++ List.drop (wl + ((S - wl) ⊓ (br'.length + 1))) bufD), rl + (accepts ai ⊓ (wl + ((S - wl) ⊓ (br'.length + 1)) - rl)), wl + ((S - wl) ⊓ (br'.length + 1)), sbl + (accepts ai ⊓ (wl + ((S - wl) ⊓ (br'.length + 1)) - rl)),
              ws ++ [List.take (accepts ai ⊓ (wl + ((S - wl) ⊓ (br'.length + 1)) - rl)) (List.drop rl (List.take (wl + ((S - wl) ⊓ (br'.length + 1))) (List.take wl bufD ++ (List.take (S - wl) (x :: br') ++ List.drop (wl + ((S - wl) ⊓ (br'.length + 1))) bufD))))], ai + 1⟩, true) := by
          simp [macReqPoll, hA, hr1, hD]
        rw [hpoll]
        constructor
        · unfold MacReqInv
          refine ⟨rfl, hlen1, by simp only []; omega, by simp only []; omega,
            fun hc => absurd hc hD, ?_, ?_⟩
          · have hdd : List.drop (rl + (accepts ai ⊓ (wl + ((S - wl) ⊓ (br'.length + 1)) - rl))) (List.take (wl + ((S - wl) ⊓ (br'.length + 1))) (List.take wl bufD ++ (List.take (S - wl) (x :: br') ++ List.drop (wl + ((S - wl) ⊓ (br'.length + 1))) bufD))) =
                List.drop (accepts ai ⊓ (wl + ((S - wl) ⊓ (br'.length + 1)) - rl)) (List.drop rl (List.take (wl + ((S - wl) ⊓ (br'.length + 1))) (List.take wl bufD ++ (List.take (S - wl) (x :: br') ++ List.drop (wl + ((S - wl) ⊓ (br'.length + 1))) bufD)))) := (List.drop_drop _ _ _).symm
            rw [hdd, ← hflat]
            simp only [List.flatten_append, List.flatten_cons, List.flatten_nil,
              List.append_nil, List.append_assoc]
            rw [← List.append_assoc (List.take (accepts ai ⊓ (wl + ((S - wl) ⊓ (br'.length + 1)) - rl)) (List.drop rl (List.take (wl + ((S - wl) ⊓ (br'.length + 1))) (List.take wl bufD ++ (List.take (S - wl) (x :: br') ++ List.drop (wl + ((S - wl) ⊓ (br'.length + 1))) bufD))))) (List.drop (accepts ai ⊓ (wl + ((S - wl) ⊓ (br'.length + 1)) - rl)) (List.drop rl (List.take (wl + ((S - wl) ⊓ (br'.length + 1))) (List.take wl bufD ++ (List.take (S - wl) (x :: br') ++ List.drop (wl + ((S - wl) ⊓ (br'.length + 1))) bufD))))) (List.drop (S - wl) (x :: br')),
              List.take_append_drop, hwin]
            conv_rhs => rw [← List.take_append_drop (S - wl) (x :: br')]
            simp [List.append_assoc]
          · simp only [List.flatten_append, List.flatten_cons, List.flatten_nil,
              List.append_nil, List.length_append, List.length_take, hwlen, hsent]
            omega
        · simp only [hbr1]
          omega

theorem driveMacReq_step (S : Nat) (accepts : Nat → Nat) (fuel : Nat) (s : MacReqState) :
    driveMacReq S accepts (fuel + 1) s =
      if s.status = MacNetworkStatus.bodySent then some s
      else driveMacReq S accepts fuel (macReqPoll S accepts s).1 := rfl

theorem driveMacReq_total (S : Nat) (hS : 1 ≤ S) (accepts : Nat → Nat)
    (hacc : ∀ i, 1 ≤ accepts i) (body : List Nat) :
    ∀ M s, MacReqInv S body s →
      s.bodyRemaining.length + (s.writeLen - s.readLen) ≤ M →
      ∃ fuel s', driveMacReq S accepts fuel s = some s' ∧
        s'.status = MacNetworkStatus.bodySent ∧ s'.writes.flatten = body ∧
        s'.sentBodyLen = body.length := by
  intro M
  induction M using Nat.strong_induction_on with
  | _ M ihM =>
    intro s hinv hM
    have hst := hinv.1
    have hsent := hinv.2.2.2.2.2.2
    rcases macReqPoll_step S hS accepts hacc body s hinv with ⟨h1, h2, h3⟩ | ⟨hinv2, hdec⟩
    · refine ⟨1 + 1, (macReqPoll S accepts s).1, ?_, h1, h2, h3⟩
      rw [driveMacReq_step, if_neg (by rw [hst]; simp)]
      rw [driveMacReq_step, if_pos h1]
    · have hlt : (macReqPoll S accepts s).1.bodyRemaining.length +
          ((macReqPoll S accepts s).1.writeLen - (macReqPoll S accepts s).1.readLen) < M := by
        omega
      obtain ⟨f, s', hdrive, hst2, hfl, hsl⟩ :=
        ihM _ hlt (macReqPoll S accepts s).1 hinv2 (le_refl _)
      refine ⟨f + 1, s', ?_, hst2, hfl, hsl⟩
      rw [driveMacReq_step, if_neg (by rw [hst]; simp)]
      exact hdrive

/-- C2 counterexample: the macOS upload poll refutes the "a zero-length
body-source read transitions to `BodySent` without any native write in
the same poll" conjunct.  At the concrete state where the body source is
exhausted (zero-length read) but two bytes are still parked in the
`ReadWriteBuffer`, the same poll issues a `CFWriteStreamWrite` of `[5]`
(src/macos/request.rs:265-298) and stays in `SendingBody`
(src/macos/request.rs:299-305) instead of transitioning. -/
theorem C2_counterexample :
    c2MacZeroReadState.bodyRemaining = [] ∧
    (macReqPoll 4 (fun _ => 1) c2MacZeroReadState).1.writes = [[5]] ∧
    (macReqPoll 4 (fun _ => 1) c2MacZeroReadState).1.status =
      MacNetworkStatus.sendingBody ∧
    (macReqPoll 4 (fun _ => 1) c2MacZeroReadState).1.sentBodyLen = 1 := by
  refine ⟨rfl, rfl, rfl, rfl⟩

/-- C2 as amended: on Windows, driving a request whose body source yields
`chunks` (each a non-empty read of at most the transfer-buffer size), the
native `WinHttpWriteData` payloads are exactly the source chunks in order
— so their total length is the body length, with no gap, overlap,
duplication or reordering — and a zero-length body-source read
transitions to `BodySent` with an immediate self-wake and no native write
in that poll.  On macOS, driving the upload delivers natively exactly the
body bytes in order with `sent_body_len` equal to the body length, and a
zero-length body-source read transitions to `BodySent` in the same poll
only when the `ReadWriteBuffer` is already empty; with bytes still
buffered, the poll first writes them natively and defers the transition
(as the counterexample shows). -/
theorem C2_amended (chunks : List (List Nat)) (hdrs : String)
    (_hch : ∀ c ∈ chunks, c ≠ [] ∧ c.length ≤ BUF_SIZE) :
    (driveReq (chunks.length + 4) (initReqState chunks hdrs) =
        some (hdrs, reqDoneState chunks hdrs) ∧
      (reqDoneState chunks hdrs).writes = chunks ∧
      (reqDoneState chunks hdrs).writes.flatten = chunks.flatten) ∧
    (∀ s : WinReqState, s.ctx.status = NetworkStatus.writeCompleted →
      s.bodyChunks = [] →
      reqPoll s = (ReqPoll.pending,
        { s with ctx := { s.ctx with status := NetworkStatus.bodySent } }, true)) ∧
    (∀ S : Nat, 1 ≤ S → ∀ accepts : Nat → Nat, (∀ i, 1 ≤ accepts i) →
      ∀ body : List Nat, ∃ fuel s',
        driveMacReq S accepts fuel (macReqInitState S body) = some s' ∧
        s'.status = MacNetworkStatus.bodySent ∧
        s'.writes.flatten = body ∧ s'.sentBodyLen = body.length) ∧
    (∀ (S : Nat), 1 ≤ S → ∀ (accepts : Nat → Nat) (m : MacReqState),
      m.status = MacNetworkStatus.sendingBody → m.bodyRemaining = [] →
      m.readLen = 0 → m.writeLen = 0 →
      macReqPoll S accepts m =
        ({ m with status := MacNetworkStatus.bodySent }, true)) := by
  refine ⟨⟨?_, rfl, rfl⟩, ?_, ?_, ?_⟩
  · have h := driveReq_loop hdrs chunks []
    exact h
  · intro s h1 h2
    obtain ⟨⟨w, st, io, rh⟩, bc, wr, pn, nh⟩ := s
    simp only at h1 h2
    subst h1 h2
    rfl
  · intro S hS accepts hacc body
    have hinv : MacReqInv S body (macReqInitState S body) := by
      simp [MacReqInv, macReqInitState]
    exact driveMacReq_total S hS accepts hacc body body.length
      (macReqInitState S body) hinv (by simp [macReqInitState])
  · intro S hS accepts m h1 h2 h3 h4
    obtain ⟨st, br, bufD, rl, wl, sl, ws, ai⟩ := m
    simp only at h1 h2 h3 h4
    subst h1 h2 h3 h4
    have h0S : ¬(0 = S) := by omega
    simp [macReqPoll, h0S]

/-- Witness for C2's amended theorem at a concrete two-chunk body. -/
theorem C2_amended_witness :
    (driveReq ([[1, 2], [3]].length + 4) (initReqState [[1, 2], [3]] "H") =
        some ("H", reqDoneState [[1, 2], [3]] "H") ∧
      (reqDoneState [[1, 2], [3]] "H").writes = [[1, 2], [3]] ∧
      (reqDoneState [[1, 2], [3]] "H").writes.flatten = [[1, 2], [3]].flatten) ∧
    (∀ s : WinReqState, s.ctx.status = NetworkStatus.writeCompleted →
      s.bodyChunks = [] →
      reqPoll s = (ReqPoll.pending,
        { s with ctx := { s.ctx with status := NetworkStatus.bodySent } }, true)) ∧
    (∀ S : Nat, 1 ≤ S → ∀ accepts : Nat → Nat, (∀ i, 1 ≤ accepts i) →
      ∀ body : List Nat, ∃ fuel s',
        driveMacReq S accepts fuel (macReqInitState S body) = some s' ∧
        s'.status = MacNetworkStatus.bodySent ∧
        s'.writes.flatten = body ∧ s'.sentBodyLen = body.length) ∧
    (∀ (S : Nat), 1 ≤ S → ∀ (accepts : Nat → Nat) (m : MacReqState),
      m.status = MacNetworkStatus.sendingBody → m.bodyRemaining = [] →
      m.readLen = 0 → m.writeLen = 0 →
      macReqPoll S accepts m =
        ({ m with status := MacNetworkStatus.bodySent }, true)) :=
  C2_amended [[1, 2], [3]] "H" (by decide)

/-- C1 counterexample: the macOS response stream can drop
natively-delivered bytes, refuting the round-trip claim for that backend.
At the concrete mid-drain state (three bytes parked by the refill loop,
one already returned), a poll would deliver the remaining bytes `[6, 7]`;
but when the native end-of-stream event `kCFStreamEventEndEncountered`
fires first, the status callback stores `FinishedData`
(src/macos/response.rs:194-196) and every subsequent `poll_read` takes the
`FinishedData` arm (src/macos/response.rs:124-131), reporting `Ok(0)`
with the state unchanged — the two undrained bytes are never returned. -/
theorem C1_counterexample :
    (macRespPollRead c1MacMidDrainState 8).1 = RespPoll.ok [6, 7] ∧
    (response_status_callback c1MacMidDrainState CFStreamEvent.endEncountered).1.readSize <
      (response_status_callback c1MacMidDrainState CFStreamEvent.endEncountered).1.bufSize ∧
    macRespPollRead
        (response_status_callback c1MacMidDrainState CFStreamEvent.endEncountered).1 8 =
      (RespPoll.ok [],
        (response_status_callback c1MacMidDrainState CFStreamEvent.endEncountered).1) := by
  refine ⟨rfl, by decide, rfl⟩

/-- C1 as amended: for both Windows response streams — the channel
revision and the legacy revision — driving the stream over a native
payload delivered as non-empty chunks of at most `BUF_SIZE` bytes returns
chunks whose concatenation equals the native payload, with no byte
duplicated, dropped or reordered, and a partially-consumed transfer
buffer is drained through the read cursor before any further native call:
the channel-revision poll then issues no native call and consumes no
event, the legacy poll restores the `DataWritten` status and issues no
native call, and the macOS poll likewise copies out through its read
cursor while the status remains `ReceivingData`.  (On macOS the
round-trip equality can fail: if end-of-stream is signalled while the
buffer is partially drained, the remaining bytes are dropped, as the
counterexample shows.) -/
theorem C1_amended (chunks : List (List Nat)) (k : Nat) (hk : 1 ≤ k)
    (hch : ∀ c ∈ chunks, c ≠ [] ∧ c.length ≤ BUF_SIZE) :
    (∃ fuel out s',
        driveResp fuel (initRespState chunks) k [] = some (out, s') ∧
        out.flatten = chunks.flatten ∧ s'.ctx.hasCompleted = true) ∧
    (∃ fuel out s',
        driveOldResp fuel (oldInitState chunks) k [] = some (out, s') ∧
        out.flatten = chunks.flatten ∧ s'.resp.ctx.bufSize = 0 ∧
        s'.resp.ctx.status = NetworkStatus.pending) ∧
    (∀ (s : WinRespState) (k' : Nat), s.ctx.wakerSet = true →
      s.ctx.hasCompleted = false → s.ctx.bufSize ≠ USIZE_MAX →
      s.readSize < s.ctx.bufSize →
      (respPollRead s k').1 =
        RespPoll.ok ((s.buf.drop s.readSize).take
          (min (min s.ctx.bufSize k') (s.ctx.bufSize - s.readSize))) ∧
      (respPollRead s k').2.pendingOp = s.pendingOp ∧
      (respPollRead s k').2.events = s.events) ∧
    (∀ (so : OldWinRespState) (k' : Nat),
      so.ctx.status = NetworkStatus.dataWritten → so.ctx.bufSize ≠ 0 →
      so.readSize < so.ctx.bufSize →
      (oldRespPollRead so k').1 =
        RespPoll.ok ((so.buf.drop so.readSize).take
          (min (min so.ctx.bufSize k') (so.ctx.bufSize - so.readSize))) ∧
      (oldRespPollRead so k').2.pendingOp = so.pendingOp ∧
      (oldRespPollRead so k').2.ctx.status = NetworkStatus.dataWritten) ∧
    (∀ (m : MacRespState) (k' : Nat), m.status = MacNetworkStatus.receivingData →
      m.readSize < m.bufSize →
      (macRespPollRead m k').1 =
        RespPoll.ok ((m.buf.drop m.readSize).take (min (m.bufSize - m.readSize) k')) ∧
      (macRespPollRead m k').2.status = MacNetworkStatus.receivingData) := by
  refine ⟨?_, ?_, ?_, ?_, ?_⟩
  · obtain ⟨f, out, s', hdrive, hflat, hcomp⟩ :=
      driveResp_loop k hk chunks hch (List.replicate BUF_SIZE 0) 0 0 0 []
        (by simp) (by simp)
    refine ⟨f + 1, out, s', ?_, hflat, hcomp⟩
    have p0 : respPollRead (initRespState chunks) k =
        (RespPoll.pending,
          { ctx := { wakerSet := true, hasCompleted := false, bufSize := 0 },
            readSize := 0,
            totalReadSize := 0,
            buf := List.replicate BUF_SIZE 0,
            events := [],
            pendingOp := some RespNativeOp.queryDataAvailable,
            chunks := chunks }) := by
      simp [respPollRead, initRespState]
    rw [driveResp_pending_step _ _ _ _ _ p0, respNativeStep_query]
    simpa using hdrive
  · obtain ⟨f, out, s', hdrive, hflat, hbz, hst⟩ :=
      driveOldResp_loop k hk chunks hch (List.replicate BUF_SIZE 0) 0 0 [] (by simp)
    refine ⟨f + 1, out, s', ?_, hflat, hbz, hst⟩
    have p0 : oldSysPollRead (oldInitState chunks) k =
        (RespPoll.pending,
          { resp := { ctx := { wakerSet := true, status := NetworkStatus.pending, ioError := none, bufSize := 0 },
                      readSize := 0, buf := List.replicate BUF_SIZE 0,
                      pendingOp := some RespNativeOp.queryDataAvailable },
            chunks := chunks }) := by
      simp [oldSysPollRead, oldRespPollRead, oldInitState]
    rw [driveOldResp_pending_step _ _ _ _ _ p0, oldSysNativeStep_query]
    simpa using hdrive
  · intro s k' hw hc hbM hr
    simp [respPollRead, hw, hc, hbM, hr]
  · intro so k' hst hb0 hr
    obtain ⟨⟨w, st, io, bsz⟩, rs, bf, po⟩ := so
    simp only at hst hb0 hr
    subst hst
    simp [oldRespPollRead, hb0, Nat.not_le.mpr hr]
  · intro m k' hst hr
    obtain ⟨st, w, rs, bs, bf⟩ := m
    simp only at hst hr
    subst hst
    simp [macRespPollRead, hr]

/-- Witness for C1's amended theorem at the concrete payload
`[[7, 8, 9], [4]]` and caller buffer length 2. -/
theorem C1_amended_witness :
    (∃ fuel out s',
        driveResp fuel (initRespState [[7, 8, 9], [4]]) 2 [] = some (out, s') ∧
        out.flatten = [[7, 8, 9], [4]].flatten ∧ s'.ctx.hasCompleted = true) ∧
    (∃ fuel out s',
        driveOldResp fuel (oldInitState [[7, 8, 9], [4]]) 2 [] = some (out, s') ∧
        out.flatten = [[7, 8, 9], [4]].flatten ∧ s'.resp.ctx.bufSize = 0 ∧
        s'.resp.ctx.status = NetworkStatus.pending) ∧
    (∀ (s : WinRespState) (k' : Nat), s.ctx.wakerSet = true →
      s.ctx.hasCompleted = false → s.ctx.bufSize ≠ USIZE_MAX →
      s.readSize < s.ctx.bufSize →
      (respPollRead s k').1 =
        RespPoll.ok ((s.buf.drop s.readSize).take
          (min (min s.ctx.bufSize k') (s.ctx.bufSize - s.readSize))) ∧
      (respPollRead s k').2.pendingOp = s.pendingOp ∧
      (respPollRead s k').2.events = s.events) ∧
    (∀ (so : OldWinRespState) (k' : Nat),
      so.ctx.status = NetworkStatus.dataWritten → so.ctx.bufSize ≠ 0 →
      so.readSize < so.ctx.bufSize →
      (oldRespPollRead so k').1 =
        RespPoll.ok ((so.buf.drop so.readSize).take
          (min (min so.ctx.bufSize k') (so.ctx.bufSize - so.readSize))) ∧
      (oldRespPollRead so k').2.pendingOp = so.pendingOp ∧
      (oldRespPollRead so k').2.ctx.status = NetworkStatus.dataWritten) ∧
    (∀ (m : MacRespState) (k' : Nat), m.status = MacNetworkStatus.receivingData →
      m.readSize < m.bufSize →
      (macRespPollRead m k').1 =
        RespPoll.ok ((m.buf.drop m.readSize).take (min (m.bufSize - m.readSize) k')) ∧
      (macRespPollRead m k').2.status = MacNetworkStatus.receivingData) :=
  C1_amended [[7, 8, 9], [4]] 2 (by decide) (by decide)

/-- Witness for C4's amended theorem at the concrete idle request, idle
legacy response, idle channel response, the native timeout code 12002 and
caller buffer length 1. -/
theorem C4_amended_witness :
    ((reqErrorCallback c4IdleReqState 12002).1.ctx.ioError =
        some (resolve_io_error_from_error_code 12002) ∧
      (reqErrorCallback c4IdleReqState 12002).1.ctx.status = NetworkStatus.error ∧
      (reqErrorCallback c4IdleReqState 12002).2 = c4IdleReqState.ctx.wakerSet ∧
      (reqPoll (reqErrorCallback c4IdleReqState 12002).1).1 =
        ReqPoll.ioError (resolve_io_error_from_error_code 12002) ∧
      (reqPoll (reqPoll (reqErrorCallback c4IdleReqState 12002).1).2.1).1 =
        ReqPoll.pending) ∧
    ((oldRespErrorCallback c4IdleOldRespState 12002).1.ctx.ioError =
        some (resolve_io_error_from_error_code 12002) ∧
      (oldRespErrorCallback c4IdleOldRespState 12002).1.ctx.status =
        NetworkStatus.error ∧
      (oldRespErrorCallback c4IdleOldRespState 12002).2 =
        c4IdleOldRespState.ctx.wakerSet ∧
      (oldRespPollRead (oldRespErrorCallback c4IdleOldRespState 12002).1 1).1 =
        RespPoll.ioError (resolve_io_error_from_error_code 12002) ∧
      (oldRespPollRead
          (oldRespPollRead (oldRespErrorCallback c4IdleOldRespState 12002).1 1).2 1).1 =
        RespPoll.pending) ∧
    ((respErrorCallback c4IdleNewRespState 12002).1.events =
        [WinHTTPCallbackEvent.ioError (resolve_io_error_from_error_code 12002)] ∧
      (respErrorCallback c4IdleNewRespState 12002).2 =
        c4IdleNewRespState.ctx.wakerSet ∧
      (respPollRead (respErrorCallback c4IdleNewRespState 12002).1 1).1 =
        RespPoll.ioError (resolve_io_error_from_error_code 12002) ∧
      (respPollRead
          (respPollRead (respErrorCallback c4IdleNewRespState 12002).1 1).2 1).1 =
        RespPoll.pending) ∧
    ((∀ s' : WinReqState,
        reqErrorCallback s' ERROR_WINHTTP_OPERATION_CANCELLED = (s', false)) ∧
      (∀ so' : OldWinRespState,
        oldRespErrorCallback so' ERROR_WINHTTP_OPERATION_CANCELLED = (so', false)) ∧
      (∀ sn' : WinRespState,
        respErrorCallback sn' ERROR_WINHTTP_OPERATION_CANCELLED = (sn', false))) :=
  C4_amended c4IdleReqState c4IdleOldRespState c4IdleNewRespState 12002
    (by decide) (by decide) (by decide) (by decide) (by decide) 1

end Alhc
